import Mathlib

/-!
Verification development for the musashi vscode debug adapter
(`src/DukDebugger.ts`).  The TypeScript session component is shallowly
embedded: mutable per-session state becomes explicit state passing,
asynchronous promise chains become sequential `Except`-style computations
driven by a runtime oracle, and the external collaborators (node `path`
module, filesystem, source-map service, duktape wire protocol) are
parameters of the model supplied through environment/oracle structures.
-/

namespace DukDbg

/-! ## String utilities (models of the JS string primitives used) -/

/-- Whether `pre` is a prefix of `l` (JS `String.prototype.startsWith` on lists). -/
def listStartsWith : List Char → List Char → Bool
  | _, [] => true
  | [], _ :: _ => false
  | a :: as, b :: bs => a = b && listStartsWith as bs

/-- All positions of `s` at which `pat` occurs. -/
def subOccurrences (s pat : List Char) : List Nat :=
  (List.range (s.length + 1)).filter (fun i => listStartsWith (s.drop i) pat)

/-- Model of JS `String.prototype.lastIndexOf`: index of the last occurrence
of `pat` in `s`, `-1` if there is none. -/
def strLastIndexOf (s pat : String) : Int :=
  match (subOccurrences s.toList pat.toList).getLast? with
  | some i => (i : Int)
  | none => -1

/-- Model of JS `String.prototype.indexOf(pat) >= 0` (substring containment). -/
def strContainsSub (s pat : String) : Bool :=
  decide (0 ≤ strLastIndexOf s pat)

/-- Model of JS `s.substring(i, s.length - 1)`: drop the first `i` characters
and the final character. -/
def jsSubstringToLast (s : String) (i : Nat) : String :=
  String.mk ((s.toList.drop i).dropLast)

/-- Split a char list on a separator character (keeping empty segments). -/
def splitChar (cs : List Char) (sep : Char) : List (List Char) :=
  cs.foldr
    (fun c acc =>
      if c = sep then [] :: acc
      else
        match acc with
        | h :: t => (c :: h) :: t
        | [] => [[c]])
    [[]]

/-- Model of node `Path.basename`: the last path component (the session
normalizes separators to `/` before the calls that matter, and we model the
windows separator as well by splitting on both). -/
def basename (p : String) : String :=
  match ((splitChar p.toList '/').flatMap (fun c => splitChar c '\\')).getLast? with
  | some cs => String.mk cs
  | none => p

/-! ## JS `Number(string)` model

`Number(s)` on a string returns NaN (modelled as `none`) or a numeric value
(modelled as a rational: all values appearing as variable-name keys are
short decimal literals, which doubles represent exactly up to ordering).
The empty / whitespace-only string converts to `0`; decimal literals with
optional sign, fraction and exponent, and `0x`/`0o`/`0b` radix literals
convert to their value; everything else is NaN. -/

/-- Digit value of a character in the given radix, if valid. -/
def digitVal (radix : Nat) (c : Char) : Option Nat :=
  let v : Nat :=
    if '0' ≤ c ∧ c ≤ '9' then c.toNat - '0'.toNat
    else if 'a' ≤ c ∧ c ≤ 'f' then c.toNat - 'a'.toNat + 10
    else if 'A' ≤ c ∧ c ≤ 'F' then c.toNat - 'A'.toNat + 10
    else 99
  if v < radix then some v else none

/-- Parse a non-empty digit string in the given radix. -/
def parseRadix (radix : Nat) (cs : List Char) : Option Nat :=
  match cs with
  | [] => none
  | _ =>
    cs.foldlM (fun acc c => (digitVal radix c).map (fun d => acc * radix + d)) 0

/-- Parse a string of decimal digits (possibly empty) to its value and length. -/
def parseDigits (cs : List Char) : Nat × Nat :=
  cs.foldl (fun (p : Nat × Nat) c => (p.1 * 10 + (c.toNat - '0'.toNat), p.2 + 1)) (0, 0)

/-- Whether every character is a decimal digit. -/
def allDigits (cs : List Char) : Bool :=
  cs.all (fun c => '0' ≤ c && c ≤ '9')

/-- Split a char list at the first occurrence of any of the given characters. -/
def splitAtFirst (cs : List Char) (seps : List Char) : List Char × Option (List Char) :=
  match cs with
  | [] => ([], none)
  | c :: rest =>
    if seps.contains c then ([], some rest)
    else
      let (pre, post) := splitAtFirst rest seps
      (c :: pre, post)

/-- A parsed JS numeric value, kept as the exact decimal fraction
`num / 10 ^ pow10` (the names reaching the comparator are short decimal
literals, which doubles represent up to ordering). -/
structure JsNum where
  num : Int
  pow10 : Nat
  deriving Repr, DecidableEq

/-- Value comparison of two parsed numbers by cross-multiplication. -/
def JsNum.ltb (x y : JsNum) : Bool :=
  x.num * (10 : Int) ^ y.pow10 < y.num * (10 : Int) ^ x.pow10

/-- Value ordering of two parsed numbers. -/
def JsNum.leProp (x y : JsNum) : Prop :=
  x.num * (10 : Int) ^ y.pow10 ≤ y.num * (10 : Int) ^ x.pow10

instance : DecidableRel JsNum.leProp := fun x y => by
  unfold JsNum.leProp; infer_instance

/-- Parse an unsigned decimal mantissa `digits[.digits]` to an exact
decimal fraction. -/
def parseMantissa (cs : List Char) : Option JsNum :=
  let (intPart, fracPart) := splitAtFirst cs ['.']
  match fracPart with
  | none =>
    if intPart ≠ [] ∧ allDigits intPart then
      some ⟨((parseDigits intPart).1 : Int), 0⟩
    else none
  | some fp =>
    if (intPart ≠ [] ∨ fp ≠ []) ∧ allDigits intPart ∧ allDigits fp then
      let (fv, fl) := parseDigits fp
      some ⟨((parseDigits intPart).1 * 10 ^ fl + fv : Nat), fl⟩
    else none

/-- Parse a signed decimal literal with optional exponent. -/
def parseDecimal (cs : List Char) : Option JsNum :=
  let (sign, cs) : Int × List Char :=
    match cs with
    | '-' :: rest => (-1, rest)
    | '+' :: rest => (1, rest)
    | _ => (1, cs)
  let (mant, expPart) := splitAtFirst cs ['e', 'E']
  match parseMantissa mant with
  | none => none
  | some m =>
    match expPart with
    | none => some ⟨sign * m.num, m.pow10⟩
    | some ec =>
      let (esign, ed) : Bool × List Char :=
        match ec with
        | '-' :: rest => (true, rest)
        | '+' :: rest => (false, rest)
        | _ => (false, ec)
      if ed ≠ [] ∧ allDigits ed then
        let e := (parseDigits ed).1
        if esign then some ⟨sign * m.num, m.pow10 + e⟩
        else some ⟨sign * m.num * 10 ^ e, m.pow10⟩
      else none

/-- Model of JS string trimming (whitespace at both ends). -/
def jsTrim (s : String) : String :=
  String.mk (((s.toList.dropWhile Char.isWhitespace).reverse.dropWhile
    Char.isWhitespace).reverse)

/-- Model of JS `Number(s)` for strings: `none` is NaN. -/
def jsNumber (s : String) : Option JsNum :=
  let t := jsTrim s
  if t = "" then some ⟨0, 0⟩
  else
    match t.toList with
    | '0' :: 'x' :: rest => (parseRadix 16 rest).map (fun n => ⟨(n : Int), 0⟩)
    | '0' :: 'X' :: rest => (parseRadix 16 rest).map (fun n => ⟨(n : Int), 0⟩)
    | '0' :: 'o' :: rest => (parseRadix 8 rest).map (fun n => ⟨(n : Int), 0⟩)
    | '0' :: 'O' :: rest => (parseRadix 8 rest).map (fun n => ⟨(n : Int), 0⟩)
    | '0' :: 'b' :: rest => (parseRadix 2 rest).map (fun n => ⟨(n : Int), 0⟩)
    | '0' :: 'B' :: rest => (parseRadix 2 rest).map (fun n => ⟨(n : Int), 0⟩)
    | cs => parseDecimal cs

/-! ## DAP `Variable` objects and the `variablesRequest` sort -/

/-- A DAP variable as produced by the session: name, display string, and the
handle of its child property set (`0` when not expandable). -/
structure Variable where
  name : String
  value : String
  variablesReference : Nat
  deriving Repr, DecidableEq

/-- JS `<` on strings: code-unit lexicographic comparison (the core
`String` order, computed on the character data). -/
def jsStrLt (a b : String) : Bool :=
  decide (a.data < b.data)

/-- The comparator passed to `vars.sort` in `variablesRequest`
(`DukDebugger.ts`, `returnVars`): non-numeric names before numeric names,
numeric names by numeric value, non-numeric names by JS string comparison. -/
def varCompare (a b : Variable) : Int :=
  match jsNumber a.name, jsNumber b.name with
  | none, some _ => -1
  | some _, none => 1
  | some x, some y => if x.ltb y then -1 else if y.ltb x then 1 else 0
  | none, none =>
    if jsStrLt a.name b.name then -1 else if jsStrLt b.name a.name then 1 else 0

/-- The ordering relation induced by the comparator (`compare a b ≤ 0`);
a comparator-driven stable JS `Array.prototype.sort` is modelled as
insertion sort with this relation. -/
def varLe (a b : Variable) : Prop := varCompare a b ≤ 0

instance : DecidableRel varLe := fun a b => by unfold varLe; infer_instance

/-- Model of the `returnVars` closure of `variablesRequest`: artificial
property sets keep wire order, every other set is sorted with `varCompare`. -/
def jsSortVars (vars : List Variable) : List Variable :=
  List.insertionSort varLe vars

/-! ## Breakpoint index map (`BreakPointMap` in `DukDebugger.ts`)

`DukBreakPoint.dukIdx` is `undefined` until the first renumbering, modelled
as `Option Nat`.  `removeBreakpoints` nulls out matched slots while scanning
(modelled with `Option` slots); reading `.dukIdx` of an already-nulled slot
is a JS `TypeError`, modelled as `Except.error`. -/

/-- A client-side mirror entry of a duktape breakpoint. -/
structure DukBreakPoint where
  filePath : String
  line : Int
  dukIdx : Option Nat := none
  deriving Repr, DecidableEq

/-- `BreakPointMap.find`: first entry with the given path and line. -/
def bpFind (bps : List DukBreakPoint) (filePath : String) (line : Int) :
    Option DukBreakPoint :=
  bps.find? (fun b => b.filePath = filePath ∧ b.line = line)

/-- `BreakPointMap.getBreakpointsForFile` (the path is re-normalized by the
caller-supplied normalizer before comparing). -/
def bpGetForFile (normalize : String → String) (bps : List DukBreakPoint)
    (filePath : String) : List DukBreakPoint :=
  bps.filter (fun b => b.filePath = normalize filePath)

/-- Renumbering loop shared by add/remove: `bps[i].dukIdx = i`. -/
def bpRenumber (bps : List DukBreakPoint) : List DukBreakPoint :=
  bps.mapIdx (fun i b => { b with dukIdx := some i })

/-- One pass of the inner loop of `BreakPointMap.removeBreakpoints`: scan for
the first slot whose `dukIdx` equals the argument's and null it out.  The
loop reads `bps[i].dukIdx` unconditionally, so hitting an already-nulled
slot throws (`Except.error`); falling off the end without a match is fine. -/
def bpNullOutFirst (idx : Option Nat) : List (Option DukBreakPoint) →
    Except Unit (List (Option DukBreakPoint))
  | [] => .ok []
  | none :: _ => .error ()
  | some b :: rest =>
    if b.dukIdx = idx then .ok (none :: rest)
    else (bpNullOutFirst idx rest).map (fun r => some b :: r)

/-- `BreakPointMap.removeBreakpoints`: null out each match, compact, then
renumber.  Throws (`.error`) when the scan for a later argument reads an
already-nulled slot. -/
def bpRemoveBreakpoints (bps : List DukBreakPoint) (remList : List DukBreakPoint) :
    Except Unit (List DukBreakPoint) := do
  let holes ← remList.foldlM (fun acc b => bpNullOutFirst b.dukIdx acc) (bps.map some)
  return bpRenumber (holes.filterMap id)

/-- `BreakPointMap.addBreakpoints`: append, then renumber. -/
def bpAddBreakpoints (bps : List DukBreakPoint) (addList : List DukBreakPoint) :
    List DukBreakPoint :=
  bpRenumber (bps ++ addList)

/-! ## Wire values and heap pointers

Translated from the `Duk` namespace source (the protocol-constants
document shipped with `gulpfile.js`): the heap pointer type
`Duk.TValPointer` with its `toString`/`toPaddedHex`, `Duk.TValObject`,
`Duk.TValLightFunc` and the tagged value union `Duk.DValueUnion`. -/

/-- `Duk.TValPointer`: a heap pointer of declared width (4 or 8 expected)
with low/high parts; a 32-bit target uses only `lopart`. -/
structure TValPointer where
  size : Nat
  lopart : Nat
  hipart : Nat
  deriving Repr, DecidableEq

/-- JS `n.toString(16)` on a natural number: lowercase hex digits, `"0"`
for zero. -/
def hexStr (n : Nat) : String :=
  String.mk (Nat.toDigits 16 n)

/-- `Duk.TValPointer.toPaddedHex`: the hex digits left-padded with zeros to
8 characters (longer strings are kept whole, the pad loop runs zero
times). -/
def toPaddedHex (n : Nat) : String :=
  String.mk (List.replicate (8 - (hexStr n).length) '0') ++ hexStr n

/-- `Duk.TValPointer.toString`, the canonical hex string form of a heap
pointer and the object-identity cache key: a 4-byte pointer prints its low
part, any other width prints high then low. -/
def TValPointer.toStr (p : TValPointer) : String :=
  if p.size = 4 then "0x" ++ toPaddedHex p.lopart
  else "0x" ++ toPaddedHex p.hipart ++ toPaddedHex p.lopart

/-- The decoded wire value union (`Duk.DValueUnion`) as the session
consumes it: primitives decode to plain JS values, buffers to byte
buffers, object references (`Duk.TValObject`) carry a class id and heap
pointer, light functions (`Duk.TValLightFunc`) flags and a pointer, raw
pointers a heap pointer. -/
inductive DValue where
  | undef
  | nullv
  | boolv (b : Bool)
  | numv (q : ℚ)
  | strv (s : String)
  | bufv (bytes : List Nat)
  | objv (classID : Nat) (ptr : TValPointer)
  | lfuncv (flags : Nat) (ptr : TValPointer)
  | ptrv (p : TValPointer)
  deriving Repr, DecidableEq

/-! ## External collaborators: path library, filesystem, source maps,
JS runtime formatting

The session uses node `path`, `fs`, the source-map service and the host JS
runtime's number formatting as black boxes; they are supplied as function
fields of an environment record, so every theorem quantifies over their
behavior. -/

/-- Result of `SourceMap.originalPositionFor` (generated → original). -/
structure OrigPos where
  source : String
  line : Option Int

/-- Result of `SourceMap.generatedPositionFor` (original → generated). -/
structure GenPos where
  line : Option Int

/-- The source-map service contract consumed by `SourceFile`
(bias is always `LEAST_UPPER_BOUND` at the call sites, so it is baked in). -/
structure SMap where
  sources : List String
  originalPositionFor : Int → Int → OrigPos
  generatedPositionFor : String → Int → Int → GenPos

/-- Session configuration plus external collaborators. -/
structure Env where
  clientLinesStartAt1 : Bool
  sourceMaps : Bool
  outDir : String
  sourceRoot : String
  pathNormalize : String → String
  pathJoin : String → String → String
  fsExists : String → Bool
  isDirectory : String → Bool
  outDirFiles : List String
  mapPathFromSource : String → Option SMap
  numberToString : ℚ → String
  bufferToString : List Nat → String
  classNames : Nat → String
  objectClassId : Nat

/-- `DukDebugSession.normPath`: empty fallback, `Path.normalize`, then
backslashes replaced by `/`. -/
def normPath (env : Env) (fpath : String) : String :=
  String.mk ((env.pathNormalize fpath).toList.map
    (fun c => if c = '\\' then '/' else c))

/-- `DebugSession.convertClientLineToDebugger`
(the session sets debugger lines to start at 1). -/
def convertClientLineToDebugger (env : Env) (line : Int) : Int :=
  if env.clientLinesStartAt1 then line else line + 1

/-- `DebugSession.convertDebuggerLineToClient`. -/
def convertDebuggerLineToClient (env : Env) (line : Int) : Int :=
  if env.clientLinesStartAt1 then line else line - 1

/-- Model of JS `String(value)` on a decoded wire value (`dvalToString`):
primitives print like JS primitives, buffers print through the host's
`Buffer.toString`, object references and light functions print through
`Duk.TValObject.toString` / `Duk.TValLightFunc.toString`, raw pointers
their canonical hex form. -/
def dvalToString (env : Env) : DValue → String
  | .undef => "undefined"
  | .nullv => "null"
  | .boolv true => "true"
  | .boolv false => "false"
  | .numv q => env.numberToString q
  | .strv s => s
  | .bufv bytes => env.bufferToString bytes
  | .objv classID ptr =>
    "\x7b cls: " ++ Nat.repr classID ++ ", ptr: " ++ ptr.toStr ++ " \x7d"
  | .lfuncv flags ptr =>
    "\x7b flags: " ++ Nat.repr flags ++ ", ptr: " ++ ptr.toStr ++ " \x7d"
  | .ptrv p => p.toStr

/-- Model of the TS `<string>` cast on a wire value: the cast does not
convert, and the call sites only cast values that are strings on the wire;
a non-string value is left as its default printing. -/
def dvalCastString (env : Env) : DValue → String
  | .strv s => s
  | v => dvalToString env v

/-! ## Source files (`SourceFile` in `DukDebugger.ts`) -/

/-- A translated source location. -/
structure SourceFilePosition where
  path : String
  fileName : String
  line : Int

/-- A registered source file; it always points to the generated file. -/
structure SourceFile where
  id : Nat
  name : String
  path : String
  srcMap : Option SMap

/-- `SourceFile.generated2Source`: generated to original position, falling
back to the generated location when there is no map or no mapping. -/
def SourceFile.generated2Source (sf : SourceFile) (line : Int) : SourceFilePosition :=
  match sf.srcMap with
  | some m =>
    let pos := m.originalPositionFor line 0
    match pos.line with
    | some l => { path := pos.source, fileName := basename pos.source, line := l }
    | none => { path := sf.path, fileName := sf.name, line := line }
  | none => { path := sf.path, fileName := sf.name, line := line }

/-- `SourceFile.source2Generated`: original to generated position, always
reporting the generated file, keeping the line on a lookup miss. -/
def SourceFile.source2Generated (sf : SourceFile) (absSourcePath : String)
    (line : Int) : SourceFilePosition :=
  match sf.srcMap with
  | some m =>
    let pos := m.generatedPositionFor absSourcePath line 0
    match pos.line with
    | some l => { path := sf.path, fileName := sf.name, line := l }
    | none => { path := sf.path, fileName := sf.name, line := line }
  | none => { path := sf.path, fileName := sf.name, line := line }

/-! ## Handle stores and per-pause client state

`Handles<T>` comes from the DAP host library: monotonically increasing
integer handles starting at 1000, a fresh instance per reset.  TS object
references between property sets, scopes and frames are represented by
their handle in the respective store. -/

/-- Model of the host library's `Handles<T>` container. -/
structure HandleStore (α : Type) where
  nextHandle : Nat
  entries : List (Nat × α)

/-- A fresh `Handles` instance (`START_HANDLE = 1000`). -/
def HandleStore.empty : HandleStore α := ⟨1000, []⟩

/-- `Handles.create`: issue the next handle. -/
def HandleStore.create (h : HandleStore α) (v : α) : Nat × HandleStore α :=
  (h.nextHandle, ⟨h.nextHandle + 1, (h.nextHandle, v) :: h.entries⟩)

/-- `Handles.get`. -/
def HandleStore.get (h : HandleStore α) (k : Nat) : Option α :=
  (h.entries.find? (fun e => e.1 = k)).map (fun e => e.2)

/-- Update the stored value at a handle (mutation of the referenced object). -/
def HandleStore.update (h : HandleStore α) (k : Nat) (f : α → α) : HandleStore α :=
  { h with entries := h.entries.map (fun e => if e.1 = k then (e.1, f e.2) else e) }

/-- `PropertySetType` in `DukDebugger.ts`. -/
inductive PropertySetType where
  | Scope
  | Object
  | Artificials
  deriving Repr, DecidableEq

/-- `PropertySet`: the `scope` object reference is stored as a handle into
the scopes store; `vars` models the TS `variables` field (a reserved word
in Lean), with `variables === undefined` (sub-properties not yet expanded)
as `none`. -/
structure PropertySet where
  type : PropertySetType
  handle : Nat
  scopeHandle : Nat
  displayName : Option String
  heapPtr : Option TValPointer
  vars : Option (List Variable)

/-- `DukScope`: `stackFrame` and `properties` object references are stored
as handles. -/
structure DukScope where
  name : String
  stackFrameHandle : Nat
  propertiesHandle : Option Nat

/-- `DukStackFrame` (the `scopes` array holds scope handles). -/
structure DukStackFrame where
  handle : Nat
  fileName : String
  filePath : String
  funcName : String
  lineNumber : Int
  pc : Int
  depth : Int
  klass : String
  scopeHandles : Option (List Nat)

/-- `DbgClientState`: the per-pause handle tables plus the pause flag and
the pointer → property-set cache (property sets are referenced by their
`varHandles` handle). -/
structure DbgClientState where
  paused : Bool
  ptrHandles : List (String × Nat)
  varHandles : HandleStore PropertySet
  stackFrames : HandleStore DukStackFrame
  scopes : HandleStore DukScope

/-- `DbgClientState.reset`: fresh empty tables, not paused. -/
def DbgClientState.reset : DbgClientState :=
  ⟨false, [], .empty, .empty, .empty⟩

/-! ## Whole-session mutable state -/

/-- The mutable fields of `DukDebugSession` that the verified request and
notification handlers read or write. -/
structure SessionState where
  expectingBreak : String
  initialStatus : Bool
  awaitingInitialStatus : Bool
  breakpoints : List DukBreakPoint
  sources : List SourceFile
  sourceToGen : List (String × SourceFile)
  nextSourceID : Nat
  dbg : DbgClientState

/-! ## Source registry (`mapSourceFile` / `unmapSourceFile`) -/

/-- `DukDebugSession.checkForSourceMap` combined with the registration body
of `mapSourceFile`: if source maps are enabled the map is looked up from the
generated path; when a map is found, a generated-file lookup entry is added
to `_sourceToGen` for each file the map mentions (assignment into a JS
dictionary = head insertion with first-match lookup).  When the lookup
yields `null` the TS code throws on `generatedPath()` inside a `try`, so no
lookup entries are added. -/
def registerSourceMap (env : Env) (st : SessionState) (src : SourceFile) :
    SourceFile × SessionState :=
  if env.sourceMaps then
    match env.mapPathFromSource src.path with
    | some m =>
      let src := { src with srcMap := some m }
      let s2g := (m.sources.map
        (fun s => (env.pathNormalize (env.pathJoin env.sourceRoot s), src))).reverse
          ++ st.sourceToGen
      (src, { st with sourceToGen := s2g })
    | none => (src, st)
  else (src, st)

/-- The filesystem path `mapSourceFile` probes for a (normalized) name:
under the output directory with source maps, under the source root
without. -/
def probedPath (env : Env) (name : String) : String :=
  if env.sourceMaps then normPath env (env.pathJoin env.outDir name)
  else normPath env (env.pathJoin env.sourceRoot name)

/-- `DukDebugSession.mapSourceFile`: look the (normalized) name up in the
registry; otherwise probe the filesystem under the configured root, and on
success register a fresh `SourceFile` (with its source map, if any) under
the next source id. -/
def mapSourceFile (env : Env) (st : SessionState) (name : String) :
    Option SourceFile × SessionState :=
  if name = "" then (none, st)
  else
    let name := normPath env name
    match st.sources.find? (fun v => v.name = name) with
    | some v => (some v, st)
    | none =>
      let fpath := probedPath env name
      if env.fsExists fpath then
        let src : SourceFile :=
          { id := st.nextSourceID, name := name, path := fpath, srcMap := none }
        -- the TS code registers the object and then mutates its srcMap in
        -- place; registering the final object once is equivalent
        let (src2, st) := registerSourceMap env st src
        let st := { st with sources := st.sources ++ [src2],
                            nextSourceID := st.nextSourceID + 1 }
        (some src2, st)
      else (none, st)

/-- The `.js`-file filter of `unmapSourceFile`:
`f.toLowerCase().lastIndexOf(".js") != f.length - ".js".length`. -/
def isJsFileName (f : String) : Bool :=
  strLastIndexOf (String.mk (f.toList.map Char.toLower)) ".js" = (f.length : Int) - 3

/-- The directory scan loop of `unmapSourceFile`: try to map each non-directory
`.js` file of the output directory in turn, returning the first hit. -/
def unmapScanLoop (env : Env) (st : SessionState) :
    List String → Option SourceFile × SessionState
  | [] => (none, st)
  | f :: rest =>
    if isJsFileName f = false then unmapScanLoop env st rest
    else if env.isDirectory (env.pathJoin env.outDir f) then unmapScanLoop env st rest
    else
      match mapSourceFile env st f with
      | (some src, st2) => (some src, st2)
      | (none, st2) => unmapScanLoop env st2 rest

/-- `DukDebugSession.unmapSourceFile`: without source maps, map by base
name; with source maps, reverse-lookup the original path first and fall
back to mapping every `.js` file in the output directory. -/
def unmapSourceFile (env : Env) (st : SessionState) (path : String) :
    Option SourceFile × SessionState :=
  let path := env.pathNormalize path
  let name := basename path
  if env.sourceMaps = false then mapSourceFile env st name
  else
    match (st.sourceToGen.find? (fun e => e.1 = path)).map (fun e => e.2) with
    | some src => (some src, st)
    | none => unmapScanLoop env st env.outDirFiles

/-! ## The duktape protocol oracle

Each request the session can issue is a field; `Except.error` models a
rejected promise (transport failure or an ERR reply), `Except.ok` a
resolved one. -/

/-- `DukEvalResponse`. -/
structure DukEvalResponse where
  success : Bool
  result : DValue

/-- A key/value property from heap inspection. -/
structure DukProperty where
  key : DValue
  value : DValue

/-- `DukGetHeapObjInfoResponse` (the fields the session reads). -/
structure DukGetHeapObjInfoResponse where
  maxPropDescRange : Int
  properties : List DukProperty

/-- `DukGetObjPropDescRangeResponse`. -/
structure DukGetObjPropDescRangeResponse where
  properties : List DukProperty

/-- A local-variable entry of `DukGetLocalsResponse`. -/
structure DukLocalVar where
  name : String

/-- The behavior of the runtime for each command the verified handlers can
issue; `eval`'s second argument is the optional stack depth. -/
structure DukProto where
  eval : String → Option Int → Except Unit DukEvalResponse
  resume : Except Unit Unit
  stepOver : Except Unit Unit
  stepInto : Except Unit Unit
  stepOut : Except Unit Unit
  pause : Except Unit Unit
  removeBreakpoint : Option Nat → Except Unit Unit
  setBreakpoint : String → Int → Except Unit Nat
  inspectHeapObj : TValPointer → Except Unit DukGetHeapObjInfoResponse
  getObjPropDescRange : TValPointer → Int → Int → Except Unit DukGetObjPropDescRangeResponse
  localVars : Int → Except Unit (List DukLocalVar)

/-- Runtime commands issued by a handler, in order. -/
inductive Cmd where
  | resume
  | stepOver
  | stepInto
  | stepOut
  | pause
  | removeBp (idx : Option Nat)
  | addBp (fileName : String) (line : Int)
  deriving Repr, DecidableEq

/-- Events the session sends to the front end. -/
inductive SessEvent where
  | stopped (reason : String)
  | continued
  deriving Repr, DecidableEq

/-! ## Status / throw notification handlers -/

/-- `DukStatusNotification` (the fields the handler reads). -/
structure DukStatusNotification where
  paused : Bool
  filename : String
  linenumber : Int

/-- Whether the reported stop location, translated generated → original,
matches an entry of the breakpoint map (the `bp` test inside the
`nfy_status` handler). -/
def stopMatchesBreakpoint (env : Env) (st : SessionState)
    (status : DukStatusNotification) : Bool :=
  match (mapSourceFile env st status.filename).1 with
  | some sourceFile =>
    let line := convertDebuggerLineToClient env status.linenumber
    let pos := sourceFile.generated2Source line
    (bpFind st.breakpoints pos.fileName pos.line).isSome
  | none => false

/-- The `nfy_status` handler: before the initial status it only records it;
a paused status upgrades the pending stop reason to "breakpoint" when the
translated location is in the breakpoint map, resets the per-pause state,
emits the stopped event and restores the default reason; a running status
emits a continued event when previously paused. -/
def nfyStatusModel (env : Env) (st : SessionState) (status : DukStatusNotification) :
    SessionState × List SessEvent :=
  if st.initialStatus = false then
    if st.awaitingInitialStatus then
      ({ st with initialStatus := true, awaitingInitialStatus := false }, [])
    else (st, [])
  else
    if status.paused then
      let (srcOpt, st1) := mapSourceFile env st status.filename
      let st2 :=
        match srcOpt with
        | some sourceFile =>
          let line := convertDebuggerLineToClient env status.linenumber
          let pos := sourceFile.generated2Source line
          match bpFind st1.breakpoints pos.fileName pos.line with
          | some _ => { st1 with expectingBreak := "breakpoint" }
          | none => st1
        | none => st1
      let st3 := { st2 with dbg := { DbgClientState.reset with paused := true } }
      ({ st3 with expectingBreak := "debugger" }, [.stopped st2.expectingBreak])
    else
      let evs := if st.dbg.paused then [SessEvent.continued] else []
      ({ st with dbg := { st.dbg with paused := false } }, evs)

/-- The `nfy_throw` handler: records "Exception" as the pending stop reason
(the log output is not modelled). -/
def nfyThrowModel (st : SessionState) : SessionState :=
  { st with expectingBreak := "Exception" }

/-! ## Execution-control request handlers -/

/-- A DAP response as far as the verified properties observe it. -/
inductive DapResponse where
  | success
  | error (msg : String)
  deriving Repr, DecidableEq

/-- `continueRequest`: resume when paused (the response follows the resume
reply), error response otherwise. -/
def continueRequestModel (O : DukProto) (st : SessionState) :
    SessionState × DapResponse × List Cmd :=
  if st.dbg.paused then
    match O.resume with
    | .ok _ => (st, .success, [.resume])
    | .error _ => (st, .error "Request failed: ", [.resume])
  else (st, .error "Request failed: Not paused.", [])

/-- `nextRequest` (step over): error response when not paused; otherwise
record the pending "step" reason, issue step-over and respond immediately
(the reply callbacks are empty). -/
def nextRequestModel (O : DukProto) (st : SessionState) :
    SessionState × DapResponse × List Cmd :=
  if st.dbg.paused = false then (st, .error "Request failed: Not paused.", [])
  else ({ st with expectingBreak := "step" }, .success, [.stepOver])

/-- `stepInRequest`. -/
def stepInRequestModel (O : DukProto) (st : SessionState) :
    SessionState × DapResponse × List Cmd :=
  if st.dbg.paused = false then (st, .error "Request failed: Not paused.", [])
  else ({ st with expectingBreak := "stepin" }, .success, [.stepInto])

/-- `stepOutRequest`. -/
def stepOutRequestModel (O : DukProto) (st : SessionState) :
    SessionState × DapResponse × List Cmd :=
  if st.dbg.paused = false then (st, .error "Request failed: Not paused.", [])
  else ({ st with expectingBreak := "stepout" }, .success, [.stepOut])

/-- `pauseRequest`: pause when running, error response when already paused. -/
def pauseRequestModel (O : DukProto) (st : SessionState) :
    SessionState × DapResponse × List Cmd :=
  if st.dbg.paused = false then
    ({ st with expectingBreak := "pause" }, .success, [.pause])
  else (st, .error "Request failed: Already paused.", [])

/-! ## `setBreakPointsRequest` -/

/-- Arguments of a set-breakpoints request: source path and requested
(client) lines. -/
structure SetBpArgs where
  sourcePath : String
  lines : List Int

/-- The body of a set-breakpoints response: the verified breakpoint lines
(every reported breakpoint is constructed verified). -/
inductive SetBpOutcome where
  | errorResp (msg : String)
  | resp (lines : List Int)
  deriving Repr, DecidableEq

/-- The sequential `doRemoveBreakpoints` loop.  A rejected remove request
propagates (`.catch()` with no handler does not swallow), aborting the
chain: returns the commands actually issued and whether the loop finished. -/
def doRemoveLoop (O : DukProto) : List DukBreakPoint → List Cmd × Bool
  | [] => ([], true)
  | b :: rest =>
    match O.removeBreakpoint b.dukIdx with
    | .ok _ =>
      let (cs, ok) := doRemoveLoop O rest
      (.removeBp b.dukIdx :: cs, ok)
    | .error _ => ([.removeBp b.dukIdx], false)

/-- The sequential `doAddBreakpoints` loop: without a source map
`generatedName` stays `null` and the entry is silently skipped; otherwise
the original position is translated and the add issued, collecting
successfully added entries; a rejected add request aborts the chain. -/
def doAddLoop (O : DukProto) (src : SourceFile) (filePath : String) :
    List DukBreakPoint → List Cmd × Bool × List DukBreakPoint
  | [] => ([], true, [])
  | bp :: rest =>
    match src.srcMap with
    | none => doAddLoop O src filePath rest
    | some _ =>
      let pos := src.source2Generated filePath bp.line
      if pos.fileName = "" then doAddLoop O src filePath rest
      else
        match O.setBreakpoint pos.fileName pos.line with
        | .ok _ =>
          let (cs, ok, ss) := doAddLoop O src filePath rest
          (.addBp pos.fileName pos.line :: cs, ok, bp :: ss)
        | .error _ => ([.addBp pos.fileName pos.line], false, [])

/-- `setBreakPointsRequest`: resolve the source (error response if
unknown), three-way diff against the map, sequential removes then adds,
then update the map and answer with the persisting plus successfully added
lines.  `Except.error` models the paths on which no response is ever sent
(a rejected runtime request propagating through the bare `.catch()` calls,
or the map update throwing). -/
def setBreakPointsRequestModel (env : Env) (O : DukProto) (st : SessionState)
    (args : SetBpArgs) : List Cmd × Except Unit (SessionState × SetBpOutcome) :=
  let filePath := env.pathNormalize args.sourcePath
  match unmapSourceFile env st filePath with
  | (none, st1) => ([], .ok (st1, .errorResp "SetBreakPoint failed"))
  | (some src, st1) =>
    let inBreaks := args.lines.map (convertClientLineToDebugger env)
    let fileBPs := bpGetForFile env.pathNormalize st1.breakpoints filePath
    let addBPs : List DukBreakPoint := (inBreaks.filter
        (fun a => fileBPs.all (fun b => b.line ≠ a))).map
        (fun a => { filePath := filePath, line := a })
    let remBPs := fileBPs.filter (fun a => inBreaks.all (fun b => a.line ≠ b))
    let persistBPs := fileBPs.filter (fun a => remBPs.all (fun b => a.line ≠ b.line))
    let (remCmds, remOk) := doRemoveLoop O remBPs
    if remOk = false then (remCmds, .error ())
    else
      let (addCmds, addOk, successBPs) := doAddLoop O src filePath addBPs
      let cmds := remCmds ++ addCmds
      if addOk = false then (cmds, .error ())
      else
        match bpRemoveBreakpoints st1.breakpoints remBPs with
        | .error _ => (cmds, .error ())
        | .ok bps1 =>
          let bps2 := bpAddBreakpoints bps1 successBPs
          let outBPs := persistBPs ++ successBPs
          (cmds, .ok ({ st1 with breakpoints := bps2 }, .resp (outBPs.map (fun b => b.line))))

/-! ## Variable materialization

`resolvePropertySetVariables` and its callers.  The promise pipeline is
sequentialized: phase 1 is the synchronous loop over the key/value pairs,
phase 2 the `toString()` batch, phase 3 the `constructor.name` batch.  A
rejected batch (`Promise.all` rejection) stops after the mutations already
applied, returning `false` ("the resolution promise rejected"). -/

/-- Push a variable onto a property set's `variables` array. -/
def DbgClientState.pushVar (dbg : DbgClientState) (psH : Nat) (v : Variable) :
    DbgClientState :=
  { dbg with varHandles :=
      (dbg.varHandles.update psH
        (fun ps => { ps with vars := some ((ps.vars.getD []) ++ [v]) })) }

/-- Overwrite the display string of `variables[idx]` of a property set. -/
def DbgClientState.setVarValueAt (dbg : DbgClientState) (psH idx : Nat)
    (newVal : String) : DbgClientState :=
  { dbg with varHandles :=
      (dbg.varHandles.update psH
        (fun ps => { ps with vars := (ps.vars.map
          (fun l => l.mapIdx (fun i v => if i = idx then { v with value := newVal } else v))) })) }

/-- Set a property set's `displayName`. -/
def DbgClientState.setDisplayName (dbg : DbgClientState) (h : Nat) (d : String) :
    DbgClientState :=
  { dbg with varHandles :=
      (dbg.varHandles.update h (fun ps => { ps with displayName := some d })) }

/-- Read `variables[idx]` of a property set. -/
def DbgClientState.varAt (dbg : DbgClientState) (psH idx : Nat) : Option Variable :=
  ((dbg.varHandles.get psH).bind (fun ps => ps.vars)).bind (fun l => l.get? idx)

/-- Register a fresh property set: `handle = varHandles.create(set)`
followed by storing the handle in the object's own `handle` field. -/
def DbgClientState.createPropSet (dbg : DbgClientState) (ps : PropertySet) :
    Nat × DbgClientState :=
  let (h, vh) := dbg.varHandles.create ps
  (h, { dbg with varHandles := vh.update h (fun p => { p with handle := h }) })

/-- Phase 1 of `resolvePropertySetVariables`: the loop over the key/value
pairs.  Pushes one variable per pair; object values either reuse the
pointer-cached property set (taking its display name when already
resolved) or register a fresh one (built-in classes get their class name
immediately); primitives are formatted directly (strings quoted).  Returns
the indices (with their keys) queued for the `toString()` batch. -/
def resolvePhase1 (env : Env) (dbg : DbgClientState) (psH scopeH : Nat) :
    List (String × DValue) → DbgClientState × List (String × Nat)
  | [] => (dbg, [])
  | (key, value) :: rest =>
    let baseIdx := (((dbg.varHandles.get psH).bind (fun ps => ps.vars)).getD []).length
    match value with
    | .objv classID ptr =>
      let ptrStr := ptr.toStr
      match (dbg.ptrHandles.find? (fun e => e.1 = ptrStr)).map (fun e => e.2) with
      | some h =>
        match (dbg.varHandles.get h).bind (fun ps => ps.displayName) with
        | some d =>
          let dbg := dbg.pushVar psH ⟨key, d, h⟩
          resolvePhase1 env dbg psH scopeH rest
        | none =>
          let dbg := dbg.pushVar psH ⟨key, "", h⟩
          let (dbg, q) := resolvePhase1 env dbg psH scopeH rest
          (dbg, (key, baseIdx) :: q)
      | none =>
        let ps : PropertySet :=
          { type := .Object, handle := 0, scopeHandle := scopeH,
            displayName := none, heapPtr := some ptr, vars := none }
        let (h, dbg) := dbg.createPropSet ps
        let dbg := { dbg with ptrHandles := (ptrStr, h) :: dbg.ptrHandles }
        if classID ≠ env.objectClassId then
          let dbg := dbg.setDisplayName h (env.classNames classID)
          let dbg := dbg.pushVar psH ⟨key, env.classNames classID, h⟩
          resolvePhase1 env dbg psH scopeH rest
        else
          let dbg := dbg.pushVar psH ⟨key, "", h⟩
          let (dbg, q) := resolvePhase1 env dbg psH scopeH rest
          (dbg, (key, baseIdx) :: q)
    | v =>
      let disp :=
        match v with
        | .strv s => "\"" ++ s ++ "\""
        | v => dvalToString env v
      let dbg := dbg.pushVar psH ⟨key, disp, 0⟩
      resolvePhase1 env dbg psH scopeH rest

/-- Shorthand: `Except.isOk`. -/
def exceptOk : Except Unit α → Bool
  | .ok _ => true
  | .error _ => false

/-- Collect the payloads of a list of settled results, `none` when any
rejected (`Promise.all` semantics). -/
def exceptsToList : List (Except Unit α) → Option (List α)
  | [] => some []
  | .ok a :: rest => (exceptsToList rest).map (fun l => a :: l)
  | .error _ :: _ => none

/-- Phase 2 body: process one `toString()` result.  `"Object"` on an
unsuccessful eval; a `"[object Object]"` result queues a constructor-name
lookup (after recording `"[object Object]"` itself); any other result
containing `"[object"` is stripped to the class name; the result is written
both to the property set's `displayName` and the variable's display
string. -/
def applyToStrResult (env : Env) (dbg : DbgClientState) (psH : Nat)
    (entry : String × Nat) (r : DukEvalResponse) :
    DbgClientState × List (String × Nat) :=
  let rName0 := if r.success then dvalToString env r.result else "Object"
  let queueCtor := strContainsSub rName0 "[object" ∧ rName0 = "[object Object]"
  let rName :=
    if strContainsSub rName0 "[object" then
      if rName0 = "[object Object]" then rName0
      else jsSubstringToLast rName0 8
    else rName0
  let dbg :=
    match dbg.varAt psH entry.2 with
    | some v => dbg.setDisplayName v.variablesReference rName
    | none => dbg
  let dbg := dbg.setVarValueAt psH entry.2 rName
  (dbg, if queueCtor then [entry] else [])

/-- One fold step of phase 2 (accumulates the constructor-name queue). -/
def resolvePhase2Step (env : Env) (psH : Nat)
    (acc : DbgClientState × List (String × Nat))
    (p : (String × Nat) × DukEvalResponse) : DbgClientState × List (String × Nat) :=
  let (dbg, q) := applyToStrResult env acc.1 psH p.1 p.2
  (dbg, acc.2 ++ q)

/-- Phase 2 of `resolvePropertySetVariables`: the `toString()` batch. -/
def resolvePhase2 (env : Env) (O : DukProto) (dbg : DbgClientState) (psH : Nat)
    (depth : Int) (queue : List (String × Nat)) :
    DbgClientState × Option (List (String × Nat)) :=
  match exceptsToList (queue.map (fun e => O.eval (e.1 ++ ".toString()") (some depth))) with
  | none => (dbg, none)
  | some results =>
    let r := (queue.zip results).foldl (resolvePhase2Step env psH) (dbg, [])
    (r.1, some r.2)

/-- One fold step of phase 3. -/
def resolvePhase3Step (env : Env) (psH : Nat) (dbg : DbgClientState)
    (p : (String × Nat) × DukEvalResponse) : DbgClientState :=
  if p.2.success then dbg.setVarValueAt psH p.1.2 (dvalCastString env p.2.result)
  else dbg

/-- Phase 3 of `resolvePropertySetVariables`: the `constructor.name` batch
(issued without a stack depth); a successful lookup overwrites only the
variable's display string. -/
def resolvePhase3 (env : Env) (O : DukProto) (dbg : DbgClientState) (psH : Nat)
    (ctorQueue : List (String × Nat)) : DbgClientState × Bool :=
  match exceptsToList (ctorQueue.map
      (fun e => O.eval ("String(" ++ e.1 ++ ".constructor.name)") none)) with
  | none => (dbg, false)
  | some results =>
    ((ctorQueue.zip results).foldl (resolvePhase3Step env psH) dbg, true)

/-- The `if(!propSet.variables) propSet.variables = [];` step of
`resolvePropertySetVariables`. -/
def ensureVars (dbg : DbgClientState) (psH : Nat) : DbgClientState :=
  if (((dbg.varHandles.get psH).bind (fun ps => ps.vars))).isNone then
    { dbg with varHandles :=
        (dbg.varHandles.update psH (fun ps => { ps with vars := some [] })) }
  else dbg

/-- `resolvePropertySetVariables`: returns the mutated state and whether
the returned promise resolved (`false` = rejected mid-pipeline). -/
def resolvePSVModel (env : Env) (O : DukProto) (dbg : DbgClientState) (psH : Nat)
    (keys : List String) (values : List DValue) : DbgClientState × Bool :=
  match dbg.varHandles.get psH with
  | none => (dbg, false)
  | some props =>
    match (dbg.scopes.get props.scopeHandle).bind
        (fun sc => dbg.stackFrames.get sc.stackFrameHandle) with
    | none => (dbg, false)
    | some frame =>
      let depth := frame.depth
      let dbg := ensureVars dbg psH
      let (dbg, q) := resolvePhase1 env dbg psH props.scopeHandle (keys.zip values)
      if q.isEmpty then (dbg, true)
      else
        match resolvePhase2 env O dbg psH depth q with
        | (dbg, none) => (dbg, false)
        | (dbg, some ctorQ) =>
          if ctorQ.isEmpty then (dbg, true)
          else resolvePhase3 env O dbg psH ctorQ

/-- `expandScopeProperties`: create and attach the scope's property set,
evaluate every key at the frame's depth, filter out unsuccessful evals and
resolve the rest; any rejection along the way is caught, resolving with the
property set as mutated so far.  Returns the new state and the set's
handle. -/
def expandScopePropertiesModel (env : Env) (O : DukProto) (dbg : DbgClientState)
    (keys : List String) (scopeH : Nat) : DbgClientState × Nat :=
  let ps : PropertySet :=
    { type := .Scope, handle := 0, scopeHandle := scopeH,
      displayName := none, heapPtr := none, vars := some [] }
  let (h, dbg) := dbg.createPropSet ps
  let dbg := { dbg with scopes :=
      (dbg.scopes.update scopeH (fun sc => { sc with propertiesHandle := some h })) }
  match (dbg.scopes.get scopeH).bind
      (fun sc => dbg.stackFrames.get sc.stackFrameHandle) with
  | none => (dbg, h)
  | some frame =>
    match exceptsToList (keys.map (fun k => O.eval k (some frame.depth))) with
    | none => (dbg, h)
    | some results =>
      let pairs := (keys.zip results).filter (fun p => p.2.success)
      if pairs.length < 1 then (dbg, h)
      else
        let pKeys := pairs.map (fun p => p.1)
        let pValues := pairs.map (fun p => p.2.result)
        ((resolvePSVModel env O dbg h pKeys pValues).1, h)

/-- `expandPropertySubset`: lazily expand an object property set via heap
inspection (artificial properties in their own unsorted child set, then the
object's own properties); already-expanded sets return their variables;
artificial sets return theirs; scope sets answer with `[]`.  `Except.error`
models a rejected promise (the enclosing `variablesRequest` has no catch). -/
def expandPropertySubsetModel (env : Env) (O : DukProto) (dbg : DbgClientState)
    (psH : Nat) : Except Unit (DbgClientState × List Variable) :=
  match dbg.varHandles.get psH with
  | none => .error ()
  | some props =>
    match props.type with
    | .Scope => .ok (dbg, [])
    | .Artificials => .ok (dbg, props.vars.getD [])
    | .Object =>
      match props.vars with
      | some vs => .ok (dbg, vs)
      | none =>
        let dbg := { dbg with varHandles :=
            (dbg.varHandles.update psH (fun ps => { ps with vars := some [] })) }
        match props.heapPtr with
        | none => .error ()
        | some ptr =>
          match O.inspectHeapObj ptr with
          | .error _ => .error ()
          | .ok r =>
            let artificials : PropertySet :=
              { type := .Artificials, handle := 0, scopeHandle := props.scopeHandle,
                displayName := none, heapPtr := none,
                vars := some (r.properties.map
                  (fun p => ⟨dvalCastString env p.key, dvalToString env p.value, 0⟩)) }
            let (ah, dbg) := dbg.createPropSet artificials
            let dbg := dbg.pushVar psH ⟨"__artificial", "{...}", ah⟩
            let currentVars := fun (dbg : DbgClientState) =>
              (((dbg.varHandles.get psH).bind (fun ps => ps.vars)).getD [])
            if r.maxPropDescRange < 1 then .ok (dbg, currentVars dbg)
            else
              match O.getObjPropDescRange ptr 0 r.maxPropDescRange with
              | .error _ => .error ()
              | .ok r2 =>
                let props2 := r2.properties.filter (fun p => p.value ≠ .undef)
                let keys := props2.map (fun p => dvalToString env p.key)
                let vals := props2.map (fun p => p.value)
                match resolvePSVModel env O dbg psH keys vals with
                | (dbg, true) => .ok (dbg, currentVars dbg)
                | (_, false) => .error ()

/-- The sort step of `variablesRequest` (`returnVars`): every
non-artificial property set is sorted with the numeric-aware comparator,
artificial sets keep wire order. -/
def returnVarsModel (t : PropertySetType) (vars : List Variable) : List Variable :=
  if t ≠ PropertySetType.Artificials then jsSortVars vars else vars

/-- Observable outcome of a `variablesRequest`. -/
inductive VarOutcome where
  | vars (l : List Variable)
  | noResponse
  | threw
  deriving Repr, DecidableEq

/-- `variablesRequest`: an unknown reference answers with an empty variable
list ("If a stop event happened, we may have cleared the state"); scope
sets return their already-materialized variables; object/artificial sets
expand lazily; everything is sorted via `returnVars`.  `.threw` models a
synchronous throw (failed assert or property access on `undefined`)
surfaced by the host library, `.noResponse` an unhandled promise
rejection: no DAP response is produced. -/
def variablesRequestModel (env : Env) (O : DukProto) (st : SessionState)
    (ref : Nat) : SessionState × VarOutcome :=
  if ref = 0 then (st, .threw)
  else
    match st.dbg.varHandles.get ref with
    | none => (st, .vars [])
    | some props =>
      match props.type with
      | .Scope =>
        match st.dbg.scopes.get props.scopeHandle with
        | none => (st, .threw)
        | some scope =>
          match (scope.propertiesHandle.bind st.dbg.varHandles.get).bind
              (fun ps => ps.vars) with
          | none => (st, .threw)
          | some vs => (st, .vars (returnVarsModel props.type vs))
      | _ =>
        match expandPropertySubsetModel env O st.dbg ref with
        | .error _ => (st, .noResponse)
        | .ok (dbg, objVars) =>
          ({ st with dbg := dbg }, .vars (returnVarsModel props.type objVars))

/-- `isGlobalObjectByName`: evaluates `String(prefix)`; a rejected eval is
swallowed by the error callback (which resolves with `undefined`, modelled
`none`); an unsuccessful eval rejects; otherwise compares against
`"[object global]"`. -/
def isGlobalObjectByNameModel (O : DukProto) (pre : String) (depth : Int) :
    Except Unit (Option Bool) :=
  match O.eval ("String(" ++ pre ++ ")") (some depth) with
  | .error _ => .ok none
  | .ok r =>
    if r.success = false then .error ()
    else .ok (some (r.result = DValue.strv "[object global]"))

/-- `getObjectConstructorByName`: empty string for the global object and on
every failure; otherwise the evaluated constructor name.  Total: the
trailing `.catch` guarantees the promise always resolves with a string. -/
def getObjectConstructorByNameModel (env : Env) (O : DukProto) (pre : String)
    (stackDepth : Int) : String :=
  let exp := "(" ++ pre ++ ".constructor.toString().match(/\\w+/g)[1])"
  match isGlobalObjectByNameModel O pre stackDepth with
  | .error _ => ""
  | .ok v =>
    if v = some true then ""
    else
      match O.eval exp (some stackDepth) with
      | .error _ => ""
      | .ok r => if r.success then dvalToString env r.result else ""

/-- Observable outcome of a scopes request. -/
inductive ScopesOutcome where
  | scopes (l : List (String × Nat))
  | noResponse
  | threw
  deriving Repr, DecidableEq

/-- `scopeRequestForLocals`: create the "Local" scope, attach it to the
frame (throwing when the frame handle is unknown), fetch the local variable
names, prepend `this` unless it is the global object, and expand the scope
properties.  The catch of the chain sets an empty body but never sends it
(`.noResponse`). -/
def scopeRequestForLocalsModel (env : Env) (O : DukProto) (st : SessionState)
    (frameH : Nat) : SessionState × ScopesOutcome :=
  let frameOpt := st.dbg.stackFrames.get frameH
  let sc : DukScope := { name := "Local", stackFrameHandle := frameH, propertiesHandle := none }
  let (scH, scStore) := st.dbg.scopes.create sc
  let st := { st with dbg := { st.dbg with scopes := scStore } }
  match frameOpt with
  | none => (st, .threw)
  | some frame =>
    let st := { st with dbg := { st.dbg with stackFrames :=
        (st.dbg.stackFrames.update frameH
          (fun f => { f with scopeHandles := some [scH] })) } }
    match O.localVars frame.depth with
    | .error _ => (st, .noResponse)
    | .ok lvars =>
      let keys := lvars.map (fun v => v.name)
      match isGlobalObjectByNameModel O "this" frame.depth with
      | .error _ => (st, .noResponse)
      | .ok isGlobal =>
        let keys := if isGlobal = some true then keys else "this" :: keys
        let (dbg, h) := expandScopePropertiesModel env O st.dbg keys scH
        ({ st with dbg := dbg }, .scopes [("Local", h)])

/-- `scopesRequest`: asserts the paused state, then (the active `+TEST`
path) delegates to `scopeRequestForLocals`. -/
def scopesRequestModel (env : Env) (O : DukProto) (st : SessionState)
    (frameH : Nat) : SessionState × ScopesOutcome :=
  if st.dbg.paused = false then (st, .threw)
  else scopeRequestForLocalsModel env O st frameH

/-! ## Specification-level orderings (for the variable-sort claim) -/

/-- The ordering the specification describes for materialized variables:
all non-numeric names before all numeric names, non-numeric names in
lexicographic order, numeric names ascending by numeric value. -/
def specVarOrder (a b : Variable) : Prop :=
  match jsNumber a.name, jsNumber b.name with
  | none, some _ => True
  | some _, none => False
  | some x, some y => x.leProp y
  | none, none => a.name ≤ b.name

/-- Handle-store well-formedness: every issued handle is below the next
one (true of every store the session builds, since handles are issued by
`create`). -/
def HandleStore.WF (s : HandleStore α) : Prop :=
  ∀ e ∈ s.entries, e.1 < s.nextHandle

/-- The `variables` array of the property set at a handle (empty when the
set or the array is absent). -/
def varsOf (dbg : DbgClientState) (psH : Nat) : List Variable :=
  ((dbg.varHandles.get psH).bind (fun ps => ps.vars)).getD []

/-- The names of `varsOf`, in order. -/
def namesOf (dbg : DbgClientState) (psH : Nat) : List String :=
  (varsOf dbg psH).map (fun v => v.name)

/-- Lookup in the pointer → property-set cache. -/
def cacheLookup (dbg : DbgClientState) (s : String) : Option Nat :=
  (dbg.ptrHandles.find? (fun e => e.1 = s)).map (fun e => e.2)

/-- The `variablesReference` of `variables[idx]` of a property set. -/
def refAt (dbg : DbgClientState) (psH idx : Nat) : Option Nat :=
  (dbg.varAt psH idx).map (fun v => v.variablesReference)

/-! ## Concrete instances (used by witnesses and counterexamples) -/

/-- A concrete environment: identity path normalization, `/`-joining, no
source maps, everything on disk. -/
def testEnv : Env where
  clientLinesStartAt1 := true
  sourceMaps := false
  outDir := "/out"
  sourceRoot := "/root"
  pathNormalize := id
  pathJoin := fun a b => a ++ "/" ++ b
  fsExists := fun _ => true
  isDirectory := fun _ => false
  outDirFiles := []
  mapPathFromSource := fun _ => none
  numberToString := fun _ => "1"
  bufferToString := fun _ => ""
  classNames := fun n => if n = 5 then "Array" else "Object"
  objectClassId := 1

/-- A runtime oracle where every request succeeds with neutral values. -/
def okProto : DukProto where
  eval := fun _ _ => .ok ⟨true, .strv "ok"⟩
  resume := .ok ()
  stepOver := .ok ()
  stepInto := .ok ()
  stepOut := .ok ()
  pause := .ok ()
  removeBreakpoint := fun _ => .ok ()
  setBreakpoint := fun _ _ => .ok 0
  inspectHeapObj := fun _ => .ok ⟨0, []⟩
  getObjPropDescRange := fun _ _ _ => .ok ⟨[]⟩
  localVars := fun _ => .ok []

/-- The registered source file of the concrete session below. -/
def testSource : SourceFile :=
  { id := 1, name := "a.js", path := "/root/a.js", srcMap := none }

/-- A concrete attached, initialized, paused session with two breakpoints
set in `/root/a.js`. -/
def testState : SessionState where
  expectingBreak := "debugger"
  initialStatus := true
  awaitingInitialStatus := false
  breakpoints := [⟨"/root/a.js", 1, some 0⟩, ⟨"/root/a.js", 2, some 1⟩]
  sources := [testSource]
  sourceToGen := []
  nextSourceID := 2
  dbg := { DbgClientState.reset with paused := true }

/-- A concrete stack frame (depth `-1`). -/
def testFrame : DukStackFrame :=
  { handle := 800, fileName := "a.js", filePath := "/root/a.js",
    funcName := "f", lineNumber := 1, pc := 0, depth := -1, klass := "",
    scopeHandles := some [900] }

/-- A concrete "Local" scope attached to `testFrame`, whose property set
lives at handle 1000. -/
def testScope : DukScope :=
  { name := "Local", stackFrameHandle := 800, propertiesHandle := some 1000 }

/-- A per-pause state holding one materialized scope property set (handle
1000) with a single variable, wired to `testScope` and `testFrame`. -/
def staleDbg : DbgClientState where
  paused := true
  ptrHandles := []
  varHandles :=
    ⟨1001, [(1000, { type := .Scope, handle := 1000, scopeHandle := 900,
                     displayName := none, heapPtr := none,
                     vars := some [⟨"x", "1", 0⟩] })]⟩
  stackFrames := ⟨801, [(800, testFrame)]⟩
  scopes := ⟨901, [(900, testScope)]⟩

/-- The concrete session of `staleDbg`. -/
def staleState : SessionState :=
  { testState with dbg := staleDbg }

/-- A per-pause state holding one not-yet-expanded object property set at
handle 1000. -/
def objDbg : DbgClientState where
  paused := true
  ptrHandles := [("0x000000aa", 1000)]
  varHandles :=
    ⟨1001, [(1000, { type := .Object, handle := 1000, scopeHandle := 900,
                     displayName := none, heapPtr := some ⟨4, 0xaa, 0⟩,
                     vars := none })]⟩
  stackFrames := ⟨801, [(800, testFrame)]⟩
  scopes := ⟨901, [(900, testScope)]⟩

/-- The concrete session of `objDbg`. -/
def objState : SessionState :=
  { testState with dbg := objDbg }

/-- An oracle whose heap-object inspection rejects (e.g. the object is no
longer valid). -/
def inspectFailProto : DukProto :=
  { okProto with inspectHeapObj := fun _ => .error () }

/-- A per-pause state with an empty scope property set at handle 1000,
wired to `testScope` and `testFrame`: the state right after
`expandScopeProperties` created a fresh set (next handle 1001). -/
def c7Dbg : DbgClientState where
  paused := true
  ptrHandles := []
  varHandles :=
    ⟨1001, [(1000, { type := .Scope, handle := 1000, scopeHandle := 900,
                     displayName := none, heapPtr := none,
                     vars := some [] })]⟩
  stackFrames := ⟨801, [(800, testFrame)]⟩
  scopes := ⟨901, [(900, testScope)]⟩

/-- The concrete environment with an empty filesystem (every probe fails). -/
def noFsEnv : Env :=
  { testEnv with fsExists := fun _ => false }

/-- The concrete session while the target is running (fresh per-pause
state, not paused). -/
def runState : SessionState :=
  { testState with dbg := DbgClientState.reset }

/-- The source file the C10 witness registers on first call. -/
def c10Src : SourceFile :=
  { id := 2, name := "b.js", path := "/root/b.js", srcMap := none }

/-- The session state after the C10 witness registered `b.js`. -/
def c10StateP : SessionState :=
  { testState with sources := [testSource, c10Src], nextSourceID := 3 }

/-- A session whose breakpoint map stores the bare file name (the form the
status handler's lookup can actually match). -/
def bpNameState : SessionState :=
  { staleState with breakpoints := [⟨"a.js", 2, some 0⟩] }

/-- A running (not paused) status notification at a known file. -/
def runningStatus : DukStatusNotification :=
  { paused := false, filename := "a.js", linenumber := 1 }

/-- A paused status notification at line 2 of the known file (a line with a
breakpoint in `testState`... under the map's own matching). -/
def pausedStatus : DukStatusNotification :=
  { paused := true, filename := "a.js", linenumber := 2 }

/-- The state of `c7Dbg` right after phase 1 registered a fresh
generic-class object set for key `k` and pointer `ptr`: the set lives at
handle 1001 (display name pending), the variable references it, the pointer
cache holds it. -/
def c7ObjDbg (k : String) (ptr : TValPointer) : DbgClientState where
  paused := true
  ptrHandles := [(ptr.toStr, 1001)]
  varHandles :=
    ⟨1002, [(1001, { type := .Object, handle := 1001, scopeHandle := 900,
                     displayName := none, heapPtr := some ptr, vars := none }),
            (1000, { type := .Scope, handle := 1000, scopeHandle := 900,
                     displayName := none, heapPtr := none,
                     vars := some [⟨k, "", 1001⟩] })]⟩
  stackFrames := ⟨801, [(800, testFrame)]⟩
  scopes := ⟨901, [(900, testScope)]⟩

/-- `c7ObjDbg` after the `toString` batch recorded `name`: the set's display
name and the variable's display string. -/
def c7DoneDbg (k : String) (ptr : TValPointer) (name : String) : DbgClientState where
  paused := true
  ptrHandles := [(ptr.toStr, 1001)]
  varHandles :=
    ⟨1002, [(1001, { type := .Object, handle := 1001, scopeHandle := 900,
                     displayName := some name, heapPtr := some ptr, vars := none }),
            (1000, { type := .Scope, handle := 1000, scopeHandle := 900,
                     displayName := none, heapPtr := none,
                     vars := some [⟨k, name, 1001⟩] })]⟩
  stackFrames := ⟨801, [(800, testFrame)]⟩
  scopes := ⟨901, [(900, testScope)]⟩

/-- An oracle whose evals resolve unsuccessfully (the expression threw). -/
def toStrFailProto : DukProto :=
  { okProto with eval := fun _ _ => .ok ⟨false, .undef⟩ }

/-- An oracle answering `"[object Object]"` to the depth-bound `toString`
eval and `"Foo"` to the depth-less constructor-name eval. -/
def ctorProto : DukProto :=
  { okProto with eval := (fun _ d =>
      if d.isSome then .ok ⟨true, .strv "[object Object]"⟩
      else .ok ⟨true, .strv "Foo"⟩) }

/-- An oracle answering `"[object Array]"` to every eval. -/
def tagProto : DukProto :=
  { okProto with eval := fun _ _ => .ok ⟨true, .strv "[object Array]"⟩ }

/-- An oracle whose evals reject outright (transport failure / ERR reply). -/
def evalFailProto : DukProto :=
  { okProto with eval := fun _ _ => .error () }

end DukDbg

namespace DukDbg

/-! # Theorems -/

theorem jsStrLt_iff (a b : String) : jsStrLt a b = true ↔ a.data < b.data := by
  simp only [jsStrLt, decide_eq_true_eq]

theorem JsNum.not_ltb_iff (x y : JsNum) : y.ltb x = false ↔ x.leProp y := by
  simp only [JsNum.ltb, JsNum.leProp, decide_eq_false_iff_not, not_lt]

theorem JsNum.leProp_of_ltb (x y : JsNum) (h : x.ltb y = true) : x.leProp y := by
  simp only [JsNum.ltb, decide_eq_true_eq] at h
  exact le_of_lt h

theorem JsNum.leProp_total (x y : JsNum) : x.leProp y ∨ y.leProp x :=
  le_total _ _

theorem JsNum.leProp_trans (x y z : JsNum) (h1 : x.leProp y) (h2 : y.leProp z) :
    x.leProp z := by
  unfold JsNum.leProp at h1 h2 ⊢
  have hp : (0 : Int) < 10 ^ y.pow10 := pow_pos (by norm_num) _
  have key : (x.num * 10 ^ z.pow10) * 10 ^ y.pow10 ≤
      (z.num * 10 ^ x.pow10) * 10 ^ y.pow10 := by
    calc (x.num * 10 ^ z.pow10) * 10 ^ y.pow10
        = (x.num * 10 ^ y.pow10) * 10 ^ z.pow10 := by ring
      _ ≤ (y.num * 10 ^ x.pow10) * 10 ^ z.pow10 :=
          mul_le_mul_of_nonneg_right h1 (pow_nonneg (by norm_num) _)
      _ = (y.num * 10 ^ z.pow10) * 10 ^ x.pow10 := by ring
      _ ≤ (z.num * 10 ^ y.pow10) * 10 ^ x.pow10 :=
          mul_le_mul_of_nonneg_right h2 (pow_nonneg (by norm_num) _)
      _ = (z.num * 10 ^ x.pow10) * 10 ^ y.pow10 := by ring
  exact le_of_mul_le_mul_right key hp

/-- The comparator order coincides with the specification's ordering. -/
theorem varLe_iff (a b : Variable) : varLe a b ↔ specVarOrder a b := by
  unfold varLe varCompare specVarOrder
  rcases ha : jsNumber a.name with _ | x <;> rcases hb : jsNumber b.name with _ | y
  · -- both non-numeric: string comparison
    rcases hlt : jsStrLt a.name b.name with _ | _ <;>
      rcases hgt : jsStrLt b.name a.name with _ | _
    · norm_num [hlt, hgt]
      exact le_of_not_lt
        (fun hc => absurd ((jsStrLt_iff b.name a.name).2 hc) (by simp [hgt]))
    · norm_num [hlt, hgt]
      exact (jsStrLt_iff b.name a.name).1 hgt
    · norm_num [hlt]
      exact le_of_lt ((jsStrLt_iff a.name b.name).1 hlt)
    · norm_num [hlt]
      exact le_of_lt ((jsStrLt_iff a.name b.name).1 hlt)
  · norm_num
  · norm_num
  · -- both numeric: value comparison
    rcases hlt : x.ltb y with _ | _ <;> rcases hgt : y.ltb x with _ | _
    · norm_num [hlt, hgt]
      exact (JsNum.not_ltb_iff x y).1 hgt
    · norm_num [hlt, hgt]
      intro hle
      rw [← JsNum.not_ltb_iff] at hle
      simp [hle] at hgt
    · norm_num [hlt]
      exact JsNum.leProp_of_ltb x y hlt
    · norm_num [hlt]
      exact JsNum.leProp_of_ltb x y hlt

theorem specVarOrder_total (a b : Variable) : specVarOrder a b ∨ specVarOrder b a := by
  unfold specVarOrder
  rcases ha : jsNumber a.name with _ | x <;> rcases hb : jsNumber b.name with _ | y
  · exact le_total _ _
  · exact Or.inl trivial
  · exact Or.inr trivial
  · exact JsNum.leProp_total x y

theorem specVarOrder_trans (a b c : Variable) (h1 : specVarOrder a b)
    (h2 : specVarOrder b c) : specVarOrder a c := by
  unfold specVarOrder at h1 h2 ⊢
  rcases ha : jsNumber a.name with _ | x <;> rcases hb : jsNumber b.name with _ | y <;>
    rcases hc : jsNumber c.name with _ | z <;>
    simp only [ha, hb, hc] at h1 h2 ⊢ <;> try trivial
  · exact le_trans h1 h2
  · exact JsNum.leProp_trans x y z h1 h2

instance : IsTotal Variable varLe :=
  ⟨fun a b => by
    rw [varLe_iff, varLe_iff]
    exact specVarOrder_total a b⟩

instance : IsTrans Variable varLe :=
  ⟨fun a b c hab hbc => by
    rw [varLe_iff] at hab hbc ⊢
    exact specVarOrder_trans a b c hab hbc⟩

/-! ## C5: variable sort order -/

/-- **C5**: the variables a `variablesRequest` returns for a non-artificial
property set are a permutation of its materialized variables ordered with
all non-numeric names first in lexicographic order followed by all numeric
names in ascending numeric order; an artificial property set preserves its
input (wire) order. -/
theorem c5_variables_sort_order (t : PropertySetType) (vars : List Variable) :
    (returnVarsModel t vars).Perm vars ∧
    (t ≠ PropertySetType.Artificials →
      (returnVarsModel t vars).Pairwise specVarOrder) ∧
    returnVarsModel PropertySetType.Artificials vars = vars := by
  refine ⟨?_, ?_, ?_⟩
  · unfold returnVarsModel jsSortVars
    split
    · exact List.perm_insertionSort varLe vars
    · exact List.Perm.refl vars
  · intro ht
    unfold returnVarsModel jsSortVars
    rw [if_pos ht]
    have hs := List.sorted_insertionSort varLe vars
    exact List.Pairwise.imp (fun hab => (varLe_iff _ _).1 hab) hs
  · simp [returnVarsModel]

/-- Witness for C5 at the specification's example: `["b","2","a","10"]`
materializes as `["a","b","2","10"]`, and the same names under an
artificial set keep wire order. -/
theorem c5_variables_sort_order_witness :
    returnVarsModel PropertySetType.Object
        [⟨"b", "", 0⟩, ⟨"2", "", 0⟩, ⟨"a", "", 0⟩, ⟨"10", "", 0⟩] =
      [⟨"a", "", 0⟩, ⟨"b", "", 0⟩, ⟨"2", "", 0⟩, ⟨"10", "", 0⟩] ∧
    (returnVarsModel PropertySetType.Object
        [⟨"b", "", 0⟩, ⟨"2", "", 0⟩, ⟨"a", "", 0⟩, ⟨"10", "", 0⟩]).Pairwise specVarOrder ∧
    returnVarsModel PropertySetType.Artificials
        [⟨"b", "", 0⟩, ⟨"2", "", 0⟩, ⟨"a", "", 0⟩, ⟨"10", "", 0⟩] =
      [⟨"b", "", 0⟩, ⟨"2", "", 0⟩, ⟨"a", "", 0⟩, ⟨"10", "", 0⟩] :=
  ⟨by decide,
   (c5_variables_sort_order PropertySetType.Object
      [⟨"b", "", 0⟩, ⟨"2", "", 0⟩, ⟨"a", "", 0⟩, ⟨"10", "", 0⟩]).2.1 (by decide),
   (c5_variables_sort_order PropertySetType.Artificials
      [⟨"b", "", 0⟩, ⟨"2", "", 0⟩, ⟨"a", "", 0⟩, ⟨"10", "", 0⟩]).2.2⟩

/-! ## C2: breakpoint map renumbering (code bug) -/

/-- **C2** (failing input): `removeBreakpoints` with two existing entries
throws.  Nulling the slot for the first argument makes the scan for the
second argument read `bps[i].dukIdx` of `null` (a TypeError, `Except.error`
in the model) instead of deleting both entries and renumbering. -/
theorem c2_remove_two_breakpoints_throws :
    bpRemoveBreakpoints
      [⟨"/root/a.js", 1, some 0⟩, ⟨"/root/a.js", 2, some 1⟩]
      [⟨"/root/a.js", 1, some 0⟩, ⟨"/root/a.js", 2, some 1⟩] = .error () := rfl

/-! ## C3: setBreakpoints three-way diff (code bug) -/

/-- **C3** (failing input): a set-breakpoints request for `/root/a.js` with
an empty line list against a session holding two breakpoints in that file
computes `remBPs` with both entries; the two runtime deletes are issued,
but the map update (`removeBreakpoints`) throws (see C2), so the response
is never sent (`Except.error`).  The removal commands were issued before
any add. -/
theorem c3_set_breakpoints_two_removals_no_response :
    setBreakPointsRequestModel testEnv okProto testState ⟨"/root/a.js", []⟩ =
      ([.removeBp (some 0), .removeBp (some 1)], .error ()) := rfl

/-! ## C4: handle invalidation (corrected) -/

/-- **C4** (counterexample): the resume transition does *not* invalidate
the handle tree (the reset on the resume branch is commented out), so a
variables request issued after a running-status notification still resolves
a handle issued during the earlier pause and returns its (stale) data
instead of rejecting it as unknown. -/
theorem c4_stale_handle_after_resume_counterexample :
    (variablesRequestModel testEnv okProto
        (nfyStatusModel testEnv staleState runningStatus).1 1000).2 =
      .vars [⟨"x", "1", 0⟩] := rfl

/-! ## C8: soft failures (corrected) -/

/-- **C8** (counterexample): an inspection failure is not always soft — a
variables request on a not-yet-expanded object property set whose
`inspectHeapObj` command rejects has no catch in `variablesRequest`, so the
request never completes (no response at all, rather than a partial one). -/
theorem c8_inspect_failure_aborts_variables_request :
    (variablesRequestModel testEnv inspectFailProto objState 1000).2 =
      .noResponse := rfl

/-! ## C9 / C10: source-registry lemmas -/

/-- `registerSourceMap` only touches the looked-up file's `srcMap` and the
reverse-lookup table; every other session field, and the file's name and
id, are unchanged. -/
theorem registerSourceMap_fields (env : Env) (st : SessionState) (src : SourceFile) :
    (registerSourceMap env st src).2.sources = st.sources ∧
    (registerSourceMap env st src).2.nextSourceID = st.nextSourceID ∧
    (registerSourceMap env st src).2.breakpoints = st.breakpoints ∧
    (registerSourceMap env st src).2.dbg = st.dbg ∧
    (registerSourceMap env st src).2.expectingBreak = st.expectingBreak ∧
    (registerSourceMap env st src).1.name = src.name ∧
    (registerSourceMap env st src).1.id = src.id ∧
    (registerSourceMap env st src).2.initialStatus = st.initialStatus ∧
    (registerSourceMap env st src).2.awaitingInitialStatus = st.awaitingInitialStatus := by
  unfold registerSourceMap
  split
  · split <;> simp
  · simp

/-- A `mapSourceFile` call that returns `null` leaves the session state
unchanged (nothing is registered). -/
theorem mapSourceFile_none (env : Env) (st : SessionState) (name : String)
    (h : (mapSourceFile env st name).1 = none) :
    mapSourceFile env st name = (none, st) := by
  unfold mapSourceFile at h ⊢
  by_cases h0 : name = ""
  · rw [if_pos h0]
  · rw [if_neg h0] at h ⊢
    rcases hf : st.sources.find? (fun v => v.name = normPath env name) with _ | v
    · simp only [hf] at h ⊢
      by_cases he : env.fsExists (probedPath env (normPath env name))
      · exfalso
        rcases hr : registerSourceMap env st
            { id := st.nextSourceID, name := normPath env name,
              path := probedPath env (normPath env name), srcMap := none } with ⟨src2, st2⟩
        simp only [if_pos he, hr] at h
        exact Option.noConfusion h
      · simp only [if_neg he]
    · simp only [hf] at h
      exact Option.noConfusion h

/-- The `.js`-scan loop of `unmapSourceFile` leaves the state unchanged
when it finds nothing. -/
theorem unmapScanLoop_none (env : Env) (st : SessionState) (files : List String)
    (h : (unmapScanLoop env st files).1 = none) :
    unmapScanLoop env st files = (none, st) := by
  induction files generalizing st with
  | nil => rfl
  | cons f rest ih =>
    unfold unmapScanLoop at h ⊢
    by_cases hjs : isJsFileName f = false
    · rw [if_pos hjs] at h ⊢
      exact ih st h
    · rw [if_neg hjs] at h ⊢
      by_cases hd : env.isDirectory (env.pathJoin env.outDir f)
      · rw [if_pos hd] at h ⊢
        exact ih st h
      · rw [if_neg hd] at h ⊢
        rcases hm : mapSourceFile env st f with ⟨srcOpt, st2⟩
        rcases srcOpt with _ | src
        · have hst : st2 = st := by
            have h2 := mapSourceFile_none env st f (by rw [hm])
            rw [hm] at h2
            exact (Prod.ext_iff.mp h2).2
          simp only [hm] at h ⊢
          rw [hst] at h ⊢
          exact ih st h
        · simp only [hm] at h
          exact Option.noConfusion h

/-- A failed `unmapSourceFile` lookup leaves the session state unchanged. -/
theorem unmapSourceFile_none (env : Env) (st : SessionState) (path : String)
    (h : (unmapSourceFile env st path).1 = none) :
    unmapSourceFile env st path = (none, st) := by
  unfold unmapSourceFile at h ⊢
  by_cases hsm : env.sourceMaps = false
  · rw [if_pos hsm] at h ⊢
    exact mapSourceFile_none env st _ h
  · rw [if_neg hsm] at h ⊢
    rcases hl : (st.sourceToGen.find? (fun e => e.1 = env.pathNormalize path)).map
        (fun e => e.2) with _ | src
    · simp only [hl] at h ⊢
      exact unmapScanLoop_none env st _ h
    · simp only [hl] at h
      exact Option.noConfusion h

/-! ## C9: user-facing request errors -/

/-- **C9**: a continue/next/stepIn/stepOut request while not paused answers
with a descriptive error response, issues no runtime command and leaves the
session state unchanged; a set-breakpoints request whose source cannot be
resolved answers with a descriptive error response, issues no runtime
command and leaves the session state unchanged. -/
theorem c9_request_errors (O : DukProto) (env : Env) (st st2 : SessionState)
    (args : SetBpArgs) (hp : st.dbg.paused = false)
    (hunk : (unmapSourceFile env st2 (env.pathNormalize args.sourcePath)).1 = none) :
    continueRequestModel O st = (st, .error "Request failed: Not paused.", []) ∧
    nextRequestModel O st = (st, .error "Request failed: Not paused.", []) ∧
    stepInRequestModel O st = (st, .error "Request failed: Not paused.", []) ∧
    stepOutRequestModel O st = (st, .error "Request failed: Not paused.", []) ∧
    setBreakPointsRequestModel env O st2 args =
      ([], .ok (st2, .errorResp "SetBreakPoint failed")) := by
  refine ⟨?_, ?_, ?_, ?_, ?_⟩
  · simp [continueRequestModel, hp]
  · simp [nextRequestModel, hp]
  · simp [stepInRequestModel, hp]
  · simp [stepOutRequestModel, hp]
  · have h2 := unmapSourceFile_none env st2 _ hunk
    unfold setBreakPointsRequestModel
    simp only [h2]

/-- Witness for C9: a concrete running session rejects all four stepping
requests, and a set-breakpoints request for an unknown file on an empty
filesystem is rejected without touching the session. -/
theorem c9_request_errors_witness :
    continueRequestModel okProto runState =
      (runState, .error "Request failed: Not paused.", []) ∧
    nextRequestModel okProto runState =
      (runState, .error "Request failed: Not paused.", []) ∧
    stepInRequestModel okProto runState =
      (runState, .error "Request failed: Not paused.", []) ∧
    stepOutRequestModel okProto runState =
      (runState, .error "Request failed: Not paused.", []) ∧
    setBreakPointsRequestModel noFsEnv okProto testState ⟨"/root/missing.xyz", [1]⟩ =
      ([], .ok (testState, .errorResp "SetBreakPoint failed")) :=
  c9_request_errors okProto noFsEnv runState testState ⟨"/root/missing.xyz", [1]⟩ rfl rfl

/-! ## C10: mapSourceFile idempotence and caching -/

/-- **C10**: `mapSourceFile` is idempotent and caching — when a call
returns a registered file, calling again with the same name returns the
identical file and the identical state (same id, no new registry entry, no
counter increment); and a call whose registry lookup misses and whose
probed path does not exist returns `null` and registers nothing. -/
theorem c10_mapSourceFile_idempotent (env : Env) (st : SessionState)
    (name : String) (src : SourceFile) (stP : SessionState)
    (h : mapSourceFile env st name = (some src, stP)) :
    mapSourceFile env stP name = (some src, stP) ∧
    (∀ (env2 : Env) (st2 : SessionState) (nm : String),
      st2.sources.find? (fun v => v.name = normPath env2 nm) = none →
      env2.fsExists (probedPath env2 (normPath env2 nm)) = false →
      mapSourceFile env2 st2 nm = (none, st2)) := by
  constructor
  · unfold mapSourceFile at h ⊢
    by_cases h0 : name = ""
    · rw [if_pos h0] at h
      exact absurd (Prod.ext_iff.mp h).1 (by simp)
    · rw [if_neg h0] at h ⊢
      rcases hf : st.sources.find? (fun v => v.name = normPath env name) with _ | v
      · simp only [hf] at h
        by_cases he : env.fsExists (probedPath env (normPath env name))
        · rcases hr : registerSourceMap env st
              { id := st.nextSourceID, name := normPath env name,
                path := probedPath env (normPath env name), srcMap := none } with ⟨src2, stR⟩
          simp only [if_pos he, hr] at h
          have hsrc : src2 = src := Option.some.inj (Prod.ext_iff.mp h).1
          have hstP : stP = { stR with sources := stR.sources ++ [src2],
                                       nextSourceID := stR.nextSourceID + 1 } := by
            exact ((Prod.ext_iff.mp h).2).symm
          have hname : src2.name = normPath env name := by
            have hfields := registerSourceMap_fields env st
              { id := st.nextSourceID, name := normPath env name,
                path := probedPath env (normPath env name), srcMap := none }
            rw [hr] at hfields
            exact hfields.2.2.2.2.2.1
          have hsources : stR.sources = st.sources := by
            have hfields := registerSourceMap_fields env st
              { id := st.nextSourceID, name := normPath env name,
                path := probedPath env (normPath env name), srcMap := none }
            rw [hr] at hfields
            exact hfields.1
          have hfind : stP.sources.find? (fun v => v.name = normPath env name) = some src := by
            rw [hstP]
            show (stR.sources ++ [src2]).find? (fun v => v.name = normPath env name) = some src
            rw [List.find?_append, hsources, hf, ← hsrc]
            simp [hname]
          simp only [hfind]
        · rw [if_neg he] at h
          exact absurd (Prod.ext_iff.mp h).1 (by simp)
      · simp only [hf] at h
        have hv : v = src := Option.some.inj (Prod.ext_iff.mp h).1
        have hst : st = stP := (Prod.ext_iff.mp h).2
        rw [← hst]
        simp only [hf, hv]
  · intro env2 st2 nm hfind hfs
    unfold mapSourceFile
    by_cases h0 : nm = ""
    · rw [if_pos h0]
    · rw [if_neg h0]
      simp [hfind, hfs]

/-- Witness for C10: registering `b.js` in the concrete session and calling
again returns the identical file and state; probing `missing.xyz` on an
empty filesystem returns `null` and changes nothing. -/
theorem c10_mapSourceFile_idempotent_witness :
    mapSourceFile testEnv c10StateP "b.js" = (some c10Src, c10StateP) ∧
    mapSourceFile noFsEnv testState "missing.xyz" = (none, testState) := by
  have h := c10_mapSourceFile_idempotent testEnv testState "b.js" c10Src c10StateP rfl
  exact ⟨h.1, h.2 noFsEnv testState "missing.xyz" rfl rfl⟩

/-! ## C1 / C4: status-notification lemmas -/

/-- `mapSourceFile` only touches the source registry: breakpoints, pending
stop reason, per-pause state and initialization flags are unchanged. -/
theorem mapSourceFile_preserves (env : Env) (st : SessionState) (name : String) :
    (mapSourceFile env st name).2.breakpoints = st.breakpoints ∧
    (mapSourceFile env st name).2.expectingBreak = st.expectingBreak ∧
    (mapSourceFile env st name).2.dbg = st.dbg ∧
    (mapSourceFile env st name).2.initialStatus = st.initialStatus ∧
    (mapSourceFile env st name).2.awaitingInitialStatus = st.awaitingInitialStatus := by
  unfold mapSourceFile
  by_cases h0 : name = ""
  · simp [h0]
  · rw [if_neg h0]
    rcases hf : st.sources.find? (fun v => v.name = normPath env name) with _ | v
    · simp only [hf]
      by_cases he : env.fsExists (probedPath env (normPath env name))
      · rcases hr : registerSourceMap env st
            { id := st.nextSourceID, name := normPath env name,
              path := probedPath env (normPath env name), srcMap := none } with ⟨src2, stR⟩
        have hfields := registerSourceMap_fields env st
          { id := st.nextSourceID, name := normPath env name,
            path := probedPath env (normPath env name), srcMap := none }
        rw [hr] at hfields
        simp only [if_pos he, hr]
        exact ⟨hfields.2.2.1, hfields.2.2.2.2.1, hfields.2.2.2.1,
               hfields.2.2.2.2.2.2.2.1, hfields.2.2.2.2.2.2.2.2⟩
      · simp [if_neg he]
    · simp [hf]

/-- A paused status notification (after initialization) rebuilds the
per-pause state from scratch, with the paused flag set. -/
theorem nfyStatus_paused_resets (env : Env) (st : SessionState)
    (status : DukStatusNotification) (h1 : st.initialStatus = true)
    (h2 : status.paused = true) :
    (nfyStatusModel env st status).1.dbg =
      { DbgClientState.reset with paused := true } := by
  unfold nfyStatusModel
  rcases hm : mapSourceFile env st status.filename with ⟨srcOpt, st1⟩
  simp only [h1, h2, hm, Bool.true_eq_false, if_false, if_true]

/-- A scopes request against a freshly reset (paused) per-pause state
throws for every frame handle: the frame table is empty. -/
theorem scopesRequest_fresh_threw (env : Env) (O : DukProto)
    (st : SessionState) (frameH : Nat)
    (h : st.dbg = { DbgClientState.reset with paused := true }) :
    (scopesRequestModel env O st frameH).2 = .threw := by
  unfold scopesRequestModel scopeRequestForLocalsModel
  rw [h]
  rfl

/-! ## C4: handle invalidation (amended theorem) -/

/-- **C4** (amended): the handle tree is invalidated and rebuilt on each
paused status notification (not on resume): after a pause notification
every previously issued handle is absent from the fresh tables, so a
variables request quoting it answers with the empty variable list (the
unknown-handle response) and a scopes request quoting a stale frame handle
throws (surfaced as an error by the host library) — neither returns stale
data.  Requests issued between resume and the next pause can still resolve
stale handles (see the counterexample). -/
theorem c4_pause_reset_invalidates_handles (env : Env) (O : DukProto)
    (st : SessionState) (status : DukStatusNotification) (ref frameH : Nat)
    (h1 : st.initialStatus = true) (h2 : status.paused = true) (h3 : ref ≠ 0) :
    (variablesRequestModel env O (nfyStatusModel env st status).1 ref).2 = .vars [] ∧
    (scopesRequestModel env O (nfyStatusModel env st status).1 frameH).2 = .threw := by
  have hdbg := nfyStatus_paused_resets env st status h1 h2
  constructor
  · unfold variablesRequestModel
    rw [if_neg h3, hdbg]
    rfl
  · exact scopesRequest_fresh_threw env O (nfyStatusModel env st status).1 frameH hdbg

/-- Witness for C4's amended theorem: in the concrete paused session, after
a further paused notification the old handles 1000 (property set) and 800
(frame) are rejected. -/
theorem c4_pause_reset_invalidates_handles_witness :
    (variablesRequestModel testEnv okProto
        (nfyStatusModel testEnv staleState pausedStatus).1 1000).2 = .vars [] ∧
    (scopesRequestModel testEnv okProto
        (nfyStatusModel testEnv staleState pausedStatus).1 800).2 = .threw :=
  c4_pause_reset_invalidates_handles testEnv okProto staleState pausedStatus
    1000 800 rfl rfl (by decide)

/-! ## C1: stop reason on paused status -/

/-- **C1**: a paused status notification received after initialization
emits exactly one stopped event whose reason is "breakpoint" when the
translated stop location matches a breakpoint-map entry and the pending
reason otherwise; the pending reason is reset to "debugger" right after the
event.  The pending reason is recorded by the triggering operation: "step"
by step-over, "stepin" / "stepout" by the step requests, "pause" by a pause
request, "Exception" by a throw notification, and "debugger" is the
default. -/
theorem c1_paused_status_stop_reason (env : Env) (st : SessionState)
    (status : DukStatusNotification) (O : DukProto) (stp strun : SessionState)
    (h1 : st.initialStatus = true) (h2 : status.paused = true)
    (hp : stp.dbg.paused = true) (hr : strun.dbg.paused = false) :
    (nfyStatusModel env st status).2 =
      [SessEvent.stopped (if stopMatchesBreakpoint env st status then "breakpoint"
        else st.expectingBreak)] ∧
    (nfyStatusModel env st status).1.expectingBreak = "debugger" ∧
    (nextRequestModel O stp).1.expectingBreak = "step" ∧
    (stepInRequestModel O stp).1.expectingBreak = "stepin" ∧
    (stepOutRequestModel O stp).1.expectingBreak = "stepout" ∧
    (pauseRequestModel O strun).1.expectingBreak = "pause" ∧
    (nfyThrowModel st).expectingBreak = "Exception" := by
  rcases hm : mapSourceFile env st status.filename with ⟨srcOpt, st1⟩
  have hbps : st1.breakpoints = st.breakpoints := by
    have hpre := (mapSourceFile_preserves env st status.filename).1
    rw [hm] at hpre
    exact hpre
  have hexp : st1.expectingBreak = st.expectingBreak := by
    have hpre := (mapSourceFile_preserves env st status.filename).2.1
    rw [hm] at hpre
    exact hpre
  refine ⟨?_, ?_, ?_, ?_, ?_, ?_, ?_⟩
  · unfold nfyStatusModel stopMatchesBreakpoint
    simp only [h1, h2, hm, hbps, Bool.true_eq_false, if_false, if_true]
    rcases srcOpt with _ | sf
    · simp [hexp]
    · rcases hb : bpFind st.breakpoints
          (sf.generated2Source (convertDebuggerLineToClient env status.linenumber)).fileName
          (sf.generated2Source (convertDebuggerLineToClient env status.linenumber)).line
        with _ | bp
      · simp [hb, hexp]
      · simp [hb]
  · unfold nfyStatusModel
    simp only [h1, h2, hm, Bool.true_eq_false, if_false, if_true]
  · simp [nextRequestModel, hp]
  · simp [stepInRequestModel, hp]
  · simp [stepOutRequestModel, hp]
  · simp [pauseRequestModel, hr]
  · rfl

/-- Witness for C1: with the map holding the bare-name entry for line 2,
the paused status at that line reports "breakpoint"; in the session whose
map stores full paths the same status reports the default "debugger"; and
the four pending-reason recorders behave as claimed. -/
theorem c1_paused_status_stop_reason_witness :
    (nfyStatusModel testEnv bpNameState pausedStatus).2 =
      [SessEvent.stopped "breakpoint"] ∧
    (nfyStatusModel testEnv staleState pausedStatus).2 =
      [SessEvent.stopped "debugger"] ∧
    (nfyStatusModel testEnv staleState pausedStatus).1.expectingBreak = "debugger" ∧
    (nextRequestModel okProto testState).1.expectingBreak = "step" ∧
    (stepInRequestModel okProto testState).1.expectingBreak = "stepin" ∧
    (stepOutRequestModel okProto testState).1.expectingBreak = "stepout" ∧
    (pauseRequestModel okProto runState).1.expectingBreak = "pause" ∧
    (nfyThrowModel staleState).expectingBreak = "Exception" := by
  have hA := c1_paused_status_stop_reason testEnv bpNameState pausedStatus okProto
    testState runState rfl rfl rfl rfl
  have hB := c1_paused_status_stop_reason testEnv staleState pausedStatus okProto
    testState runState rfl rfl rfl rfl
  refine ⟨?_, ?_, hB.2.1, hB.2.2.1, hB.2.2.2.1, hB.2.2.2.2.1, hB.2.2.2.2.2.1,
    hB.2.2.2.2.2.2⟩
  · rw [hA.1]
    rfl
  · rw [hB.1]
    rfl

/-! ## Handle-store lemmas (shared by the variable-materialization claims) -/

theorem find?_map_update (l : List (Nat × α)) (k : Nat) (f : α → α) :
    ((l.map (fun e => if e.1 = k then (e.1, f e.2) else e)).find?
        (fun e => e.1 = k)).map (fun e => e.2)
      = ((l.find? (fun e => e.1 = k)).map (fun e => e.2)).map f := by
  induction l with
  | nil => rfl
  | cons e rest ih =>
    by_cases he : e.1 = k
    · simp [he]
    · simp only [List.map_cons, List.find?_cons, if_neg he, decide_eq_false he]
      exact ih

theorem find?_map_update_ne (l : List (Nat × α)) (k k2 : Nat) (f : α → α)
    (h : k2 ≠ k) :
    (l.map (fun e => if e.1 = k then (e.1, f e.2) else e)).find?
        (fun e => e.1 = k2)
      = l.find? (fun e => e.1 = k2) := by
  induction l with
  | nil => rfl
  | cons e rest ih =>
    by_cases he : e.1 = k
    · have hne : ¬ e.1 = k2 := by rw [he]; exact fun hc => h hc.symm
      simp only [List.map_cons, List.find?_cons, if_pos he, decide_eq_false hne]
      exact ih
    · by_cases he2 : e.1 = k2
      · simp only [List.map_cons, List.find?_cons, if_neg he, decide_eq_true he2]
      · simp only [List.map_cons, List.find?_cons, if_neg he, decide_eq_false he2]
        exact ih

theorem HandleStore.get_update_self (s : HandleStore α) (k : Nat) (f : α → α) :
    (s.update k f).get k = (s.get k).map f := by
  unfold HandleStore.update HandleStore.get
  exact find?_map_update s.entries k f

theorem HandleStore.get_update_ne (s : HandleStore α) (k k2 : Nat) (f : α → α)
    (h : k2 ≠ k) : (s.update k f).get k2 = s.get k2 := by
  unfold HandleStore.update HandleStore.get
  rw [find?_map_update_ne s.entries k k2 f h]

theorem HandleStore.get_create_self (s : HandleStore α) (v : α) :
    (s.create v).2.get (s.create v).1 = some v := by
  simp [HandleStore.create, HandleStore.get]

theorem HandleStore.get_create_ne (s : HandleStore α) (v : α) (k : Nat)
    (h : k ≠ s.nextHandle) : (s.create v).2.get k = s.get k := by
  unfold HandleStore.create HandleStore.get
  have hne : ¬ s.nextHandle = k := fun hc => h hc.symm
  simp only [List.find?_cons, decide_eq_false hne]

theorem HandleStore.lt_of_get_isSome (s : HandleStore α) (k : Nat)
    (hwf : s.WF) (h : (s.get k).isSome) : k < s.nextHandle := by
  unfold HandleStore.get at h
  rcases hf : s.entries.find? (fun e => e.1 = k) with _ | e
  · rw [hf] at h
    simp at h
  · have hmem := List.mem_of_find?_eq_some hf
    have hk : e.1 = k := by
      have := List.find?_some hf
      simpa using this
    rw [← hk]
    exact hwf e hmem

theorem HandleStore.WF.create (s : HandleStore α) (v : α) (h : s.WF) :
    (s.create v).2.WF := by
  intro e he
  rcases List.mem_cons.mp he with he | he
  · rw [he]
    exact Nat.lt_succ_self _
  · exact Nat.lt_succ_of_lt (h e he)

theorem HandleStore.WF.update (s : HandleStore α) (k : Nat) (f : α → α)
    (h : s.WF) : (s.update k f).WF := by
  intro e he
  rcases List.mem_map.mp he with ⟨e0, he0, heq⟩
  have := h e0 he0
  by_cases hk : e0.1 = k
  · rw [if_pos hk] at heq
    rw [← heq]
    simpa [hk] using this
  · rw [if_neg hk] at heq
    rw [← heq]
    exact this

theorem HandleStore.get_create_isSome (s : HandleStore α) (v : α) (k : Nat)
    (hwf : s.WF) (h : (s.get k).isSome) : ((s.create v).2.get k).isSome := by
  rw [HandleStore.get_create_ne s v k
    (Nat.ne_of_lt (HandleStore.lt_of_get_isSome s k hwf h))]
  exact h

/-! ## Per-pause state operation lemmas -/

/-- `DbgClientState` well-formedness of the variable-handle store. -/
def DbgWF (dbg : DbgClientState) : Prop := dbg.varHandles.WF

theorem varsOf_pushVar (dbg : DbgClientState) (psH : Nat) (v : Variable)
    (h : (dbg.varHandles.get psH).isSome) :
    varsOf (dbg.pushVar psH v) psH = varsOf dbg psH ++ [v] := by
  unfold DbgClientState.pushVar varsOf
  rw [HandleStore.get_update_self]
  rcases hg : dbg.varHandles.get psH with _ | ps
  · rw [hg] at h
    simp at h
  · cases hv : ps.vars <;> simp [hv]

theorem pushVar_isSome (dbg : DbgClientState) (psH : Nat) (v : Variable)
    (h : (dbg.varHandles.get psH).isSome) :
    ((dbg.pushVar psH v).varHandles.get psH).isSome := by
  unfold DbgClientState.pushVar
  rw [HandleStore.get_update_self]
  simpa using h

theorem pushVar_WF (dbg : DbgClientState) (psH : Nat) (v : Variable)
    (h : DbgWF dbg) : DbgWF (dbg.pushVar psH v) :=
  HandleStore.WF.update _ _ _ h

theorem pushVar_nextHandle (dbg : DbgClientState) (psH : Nat) (v : Variable) :
    (dbg.pushVar psH v).varHandles.nextHandle = dbg.varHandles.nextHandle := rfl

theorem pushVar_ptrHandles (dbg : DbgClientState) (psH : Nat) (v : Variable) :
    (dbg.pushVar psH v).ptrHandles = dbg.ptrHandles := rfl

theorem varsOf_setDisplayName (dbg : DbgClientState) (h : Nat) (d : String)
    (psH : Nat) : varsOf (dbg.setDisplayName h d) psH = varsOf dbg psH := by
  unfold DbgClientState.setDisplayName varsOf
  by_cases hk : psH = h
  · rw [hk, HandleStore.get_update_self]
    cases dbg.varHandles.get h <;> simp
  · rw [HandleStore.get_update_ne _ _ _ _ hk]

theorem setDisplayName_isSome (dbg : DbgClientState) (h : Nat) (d : String)
    (psH : Nat) (hs : (dbg.varHandles.get psH).isSome) :
    ((dbg.setDisplayName h d).varHandles.get psH).isSome := by
  unfold DbgClientState.setDisplayName
  by_cases hk : psH = h
  · rw [hk, HandleStore.get_update_self]
    rw [hk] at hs
    simpa using hs
  · rw [HandleStore.get_update_ne _ _ _ _ hk]
    exact hs

theorem setDisplayName_WF (dbg : DbgClientState) (h : Nat) (d : String)
    (hw : DbgWF dbg) : DbgWF (dbg.setDisplayName h d) :=
  HandleStore.WF.update _ _ _ hw

theorem setDisplayName_ptrHandles (dbg : DbgClientState) (h : Nat) (d : String) :
    (dbg.setDisplayName h d).ptrHandles = dbg.ptrHandles := rfl

/-- Mapping a name-preserving index function over variables preserves the
name list. -/
theorem mapIdx_name_preserve (l : List Variable) (g : Nat → Variable → Variable)
    (hg : ∀ i v, (g i v).name = v.name) :
    (l.mapIdx g).map (fun v => v.name) = l.map (fun v => v.name) := by
  induction l generalizing g with
  | nil => rfl
  | cons a t ih =>
    rw [List.mapIdx_cons]
    simp only [List.map_cons, hg]
    exact congrArg _ (ih (fun i => g (i + 1)) (fun i v => hg (i + 1) v))

theorem namesOf_setVarValueAt (dbg : DbgClientState) (psH idx : Nat) (val : String)
    (psH2 : Nat) : namesOf (dbg.setVarValueAt psH idx val) psH2 = namesOf dbg psH2 := by
  unfold DbgClientState.setVarValueAt namesOf varsOf
  by_cases hk : psH2 = psH
  · rw [hk, HandleStore.get_update_self]
    rcases hg : dbg.varHandles.get psH with _ | ps
    · rfl
    · rcases hv : ps.vars with _ | l
      · simp [hv]
      · have hmi := mapIdx_name_preserve l
          (fun i v => if i = idx then { v with value := val } else v)
          (fun i v => by by_cases hi : i = idx <;> simp [hi])
        simpa [hv] using hmi
  · rw [HandleStore.get_update_ne _ _ _ _ hk]

theorem get_createPropSet_other (dbg : DbgClientState) (ps : PropertySet)
    (psH : Nat) (hwf : DbgWF dbg) (hs : (dbg.varHandles.get psH).isSome) :
    (dbg.createPropSet ps).2.varHandles.get psH = dbg.varHandles.get psH := by
  have hlt := HandleStore.lt_of_get_isSome _ _ hwf hs
  unfold DbgClientState.createPropSet
  rcases hc : dbg.varHandles.create ps with ⟨h, vh⟩
  have hh : h = dbg.varHandles.nextHandle := by
    have h1 := congrArg Prod.fst hc
    simp only [HandleStore.create] at h1
    exact h1.symm
  have hvh : vh = (dbg.varHandles.create ps).2 := (congrArg Prod.snd hc).symm
  show (vh.update h _).get psH = _
  rw [HandleStore.get_update_ne _ _ _ _ (by rw [hh]; exact Nat.ne_of_lt hlt),
      hvh, HandleStore.get_create_ne _ _ _ (Nat.ne_of_lt hlt)]

theorem varsOf_createPropSet (dbg : DbgClientState) (ps : PropertySet)
    (psH : Nat) (hwf : DbgWF dbg) (hs : (dbg.varHandles.get psH).isSome) :
    varsOf (dbg.createPropSet ps).2 psH = varsOf dbg psH := by
  unfold varsOf
  rw [get_createPropSet_other dbg ps psH hwf hs]

theorem createPropSet_isSome (dbg : DbgClientState) (ps : PropertySet)
    (psH : Nat) (hwf : DbgWF dbg) (hs : (dbg.varHandles.get psH).isSome) :
    (((dbg.createPropSet ps).2.varHandles.get psH)).isSome := by
  rw [get_createPropSet_other dbg ps psH hwf hs]
  exact hs

theorem createPropSet_WF (dbg : DbgClientState) (ps : PropertySet)
    (hwf : DbgWF dbg) : DbgWF (dbg.createPropSet ps).2 := by
  unfold DbgClientState.createPropSet
  rcases hc : dbg.varHandles.create ps with ⟨h, vh⟩
  have hvh : vh = (dbg.varHandles.create ps).2 := (congrArg Prod.snd hc).symm
  show HandleStore.WF (vh.update h _)
  rw [hvh]
  exact HandleStore.WF.update _ _ _ (HandleStore.WF.create _ _ hwf)

/-- The created property set is registered at the returned handle, with its
`handle` field patched to that handle. -/
theorem get_createPropSet_self (dbg : DbgClientState) (ps : PropertySet) :
    (dbg.createPropSet ps).2.varHandles.get (dbg.createPropSet ps).1 =
      some { ps with handle := (dbg.createPropSet ps).1 } := by
  unfold DbgClientState.createPropSet
  rcases hc : dbg.varHandles.create ps with ⟨h, vh⟩
  have hh : (dbg.varHandles.create ps).1 = h := congrArg Prod.fst hc
  have hvh : vh = (dbg.varHandles.create ps).2 := (congrArg Prod.snd hc).symm
  show (vh.update h _).get h = _
  rw [HandleStore.get_update_self, hvh, ← hh, HandleStore.get_create_self]
  rfl

/-- The handle returned by `createPropSet` is the store's next handle. -/
theorem createPropSet_fst (dbg : DbgClientState) (ps : PropertySet) :
    (dbg.createPropSet ps).1 = dbg.varHandles.nextHandle := rfl

theorem namesOf_pushVar (dbg : DbgClientState) (psH : Nat) (v : Variable)
    (h : (dbg.varHandles.get psH).isSome) :
    namesOf (dbg.pushVar psH v) psH = namesOf dbg psH ++ [v.name] := by
  unfold namesOf
  rw [varsOf_pushVar _ _ _ h]
  simp

theorem namesOf_setDisplayName (dbg : DbgClientState) (h : Nat) (d : String)
    (psH : Nat) : namesOf (dbg.setDisplayName h d) psH = namesOf dbg psH := by
  unfold namesOf
  rw [varsOf_setDisplayName]

/-- Phase 1 of the resolve pipeline pushes exactly one variable per
key/value pair (in order, named by the keys) onto the target property set,
and preserves store well-formedness and the presence of the target set. -/
theorem resolvePhase1_names (env : Env) (psH scopeH : Nat)
    (pairs : List (String × DValue)) :
    ∀ (dbg : DbgClientState), DbgWF dbg → ((dbg.varHandles.get psH)).isSome →
      namesOf (resolvePhase1 env dbg psH scopeH pairs).1 psH
          = namesOf dbg psH ++ pairs.map (fun p => p.1) ∧
      DbgWF (resolvePhase1 env dbg psH scopeH pairs).1 ∧
      (((resolvePhase1 env dbg psH scopeH pairs).1.varHandles.get psH)).isSome := by
  induction pairs with
  | nil =>
    intro dbg hwf hps
    exact ⟨by simp [resolvePhase1], hwf, hps⟩
  | cons p rest ih =>
    intro dbg hwf hps
    rcases p with ⟨key, value⟩
    have combine : ∀ (dbg1 : DbgClientState),
        namesOf dbg1 psH = namesOf dbg psH ++ [key] → DbgWF dbg1 →
        ((dbg1.varHandles.get psH)).isSome →
        namesOf (resolvePhase1 env dbg1 psH scopeH rest).1 psH
            = namesOf dbg psH ++ key :: rest.map (fun p => p.1) ∧
        DbgWF (resolvePhase1 env dbg1 psH scopeH rest).1 ∧
        (((resolvePhase1 env dbg1 psH scopeH rest).1.varHandles.get psH)).isSome := by
      intro dbg1 hn hw hs
      rcases ih dbg1 hw hs with ⟨h1, h2, h3⟩
      refine ⟨?_, h2, h3⟩
      rw [h1, hn, List.append_assoc]
      rfl
    unfold resolvePhase1
    rcases value with _ | _ | b | q | sv | bts | ⟨classID, ptr⟩ | ⟨fl, fptr⟩ | pp
    case objv =>
      rcases hc : (dbg.ptrHandles.find? (fun e => e.1 = ptr.toStr)).map
          (fun e => e.2) with _ | hdl
      all_goals simp only [hc]
      · -- cache miss: fresh property set
        rcases hcp : dbg.createPropSet
            { type := .Object, handle := 0, scopeHandle := scopeH,
              displayName := none, heapPtr := some ptr, vars := none } with ⟨h2, dbgA⟩
        simp only [hcp]
        have hA1 : dbgA = (dbg.createPropSet
            { type := .Object, handle := 0, scopeHandle := scopeH,
              displayName := none, heapPtr := some ptr, vars := none }).2 :=
          (congrArg Prod.snd hcp).symm
        have hAwf : DbgWF dbgA := by rw [hA1]; exact createPropSet_WF _ _ hwf
        have hAs : ((dbgA.varHandles.get psH)).isSome := by
          rw [hA1]; exact createPropSet_isSome _ _ _ hwf hps
        have hAn : namesOf dbgA psH = namesOf dbg psH := by
          rw [hA1]
          unfold namesOf
          rw [varsOf_createPropSet _ _ _ hwf hps]
        set dbgB : DbgClientState :=
          { dbgA with ptrHandles := (ptr.toStr, h2) :: dbgA.ptrHandles } with hB
        have hBwf : DbgWF dbgB := hAwf
        have hBs : ((dbgB.varHandles.get psH)).isSome := hAs
        have hBn : namesOf dbgB psH = namesOf dbg psH := hAn
        by_cases hcls : classID = env.objectClassId
        · -- generic object: queue toString
          rw [if_neg (by simp [hcls])]
          have hps1 : ((dbgB.pushVar psH ⟨key, "", h2⟩).varHandles.get psH).isSome :=
            pushVar_isSome _ _ _ hBs
          have hn1 : namesOf (dbgB.pushVar psH ⟨key, "", h2⟩) psH
              = namesOf dbg psH ++ [key] := by
            rw [namesOf_pushVar _ _ _ hBs, hBn]
          have hw1 : DbgWF (dbgB.pushVar psH ⟨key, "", h2⟩) := pushVar_WF _ _ _ hBwf
          have hcmb := combine _ hn1 hw1 hps1
          rcases hr : resolvePhase1 env (dbgB.pushVar psH ⟨key, "", h2⟩)
              psH scopeH rest with ⟨dbgR, qR⟩
          rw [hr] at hcmb
          simpa using hcmb
        · -- built-in class: class name, no queue
          rw [if_pos hcls]
          have hCwf : DbgWF (dbgB.setDisplayName h2 (env.classNames classID)) :=
            setDisplayName_WF _ _ _ hBwf
          have hCs : (((dbgB.setDisplayName h2
              (env.classNames classID)).varHandles.get psH)).isSome :=
            setDisplayName_isSome _ _ _ _ hBs
          have hCn : namesOf (dbgB.setDisplayName h2 (env.classNames classID)) psH
              = namesOf dbg psH := by
            rw [namesOf_setDisplayName, hBn]
          have hn1 : namesOf ((dbgB.setDisplayName h2
                (env.classNames classID)).pushVar psH
                ⟨key, env.classNames classID, h2⟩) psH
              = namesOf dbg psH ++ [key] := by
            rw [namesOf_pushVar _ _ _ hCs, hCn]
          exact combine _ hn1 (pushVar_WF _ _ _ hCwf) (pushVar_isSome _ _ _ hCs)
      · -- cache hit
        rcases hd : (dbg.varHandles.get hdl).bind (fun ps => ps.displayName)
            with _ | d
        all_goals simp only [hd]
        · -- no display name yet: queue
          have hps1 : ((dbg.pushVar psH ⟨key, "", hdl⟩).varHandles.get psH).isSome :=
            pushVar_isSome _ _ _ hps
          have hn1 : namesOf (dbg.pushVar psH ⟨key, "", hdl⟩) psH
              = namesOf dbg psH ++ [key] := namesOf_pushVar _ _ _ hps
          have hcmb := combine _ hn1 (pushVar_WF _ _ _ hwf) hps1
          rcases hr : resolvePhase1 env (dbg.pushVar psH ⟨key, "", hdl⟩)
              psH scopeH rest with ⟨dbgR, qR⟩
          rw [hr] at hcmb
          simpa using hcmb
        · -- display name available
          exact combine _ (namesOf_pushVar _ _ _ hps)
            (pushVar_WF _ _ _ hwf) (pushVar_isSome _ _ _ hps)
    all_goals
      exact combine _ (namesOf_pushVar _ _ _ hps)
        (pushVar_WF _ _ _ hwf) (pushVar_isSome _ _ _ hps)

theorem namesOf_applyToStrResult (env : Env) (dbg : DbgClientState) (psH : Nat)
    (e : String × Nat) (r : DukEvalResponse) :
    namesOf (applyToStrResult env dbg psH e r).1 psH = namesOf dbg psH := by
  unfold applyToStrResult
  rcases hv : dbg.varAt psH e.2 with _ | v
  all_goals simp only [hv]
  · exact namesOf_setVarValueAt dbg psH e.2 _ psH
  · rw [namesOf_setVarValueAt, namesOf_setDisplayName]

theorem namesOf_phase2_fold (env : Env) (psH : Nat)
    (l : List ((String × Nat) × DukEvalResponse)) :
    ∀ (acc : DbgClientState × List (String × Nat)),
      namesOf (l.foldl (resolvePhase2Step env psH) acc).1 psH
        = namesOf acc.1 psH := by
  induction l with
  | nil => intro acc; rfl
  | cons p rest ih =>
    intro acc
    rw [List.foldl_cons, ih]
    show namesOf (applyToStrResult env acc.1 psH p.1 p.2).1 psH = _
    exact namesOf_applyToStrResult env acc.1 psH p.1 p.2

theorem namesOf_resolvePhase2 (env : Env) (O : DukProto) (dbg : DbgClientState)
    (psH : Nat) (depth : Int) (queue : List (String × Nat)) :
    namesOf (resolvePhase2 env O dbg psH depth queue).1 psH = namesOf dbg psH := by
  unfold resolvePhase2
  rcases he : exceptsToList (queue.map
      (fun e => O.eval (e.1 ++ ".toString()") (some depth))) with _ | results
  all_goals simp only [he]
  · exact namesOf_phase2_fold env psH _ (dbg, [])

theorem namesOf_phase3_fold (env : Env) (psH : Nat)
    (l : List ((String × Nat) × DukEvalResponse)) :
    ∀ (dbg : DbgClientState),
      namesOf (l.foldl (resolvePhase3Step env psH) dbg) psH = namesOf dbg psH := by
  induction l with
  | nil => intro dbg; rfl
  | cons p rest ih =>
    intro dbg
    rw [List.foldl_cons, ih]
    unfold resolvePhase3Step
    by_cases hs : p.2.success = true
    · rw [if_pos hs, namesOf_setVarValueAt]
    · rw [if_neg hs]

theorem namesOf_resolvePhase3 (env : Env) (O : DukProto) (dbg : DbgClientState)
    (psH : Nat) (ctorQueue : List (String × Nat)) :
    namesOf (resolvePhase3 env O dbg psH ctorQueue).1 psH = namesOf dbg psH := by
  unfold resolvePhase3
  rcases he : exceptsToList (ctorQueue.map
      (fun e => O.eval ("String(" ++ e.1 ++ ".constructor.name)") none)) with _ | results
  all_goals simp only [he]
  · exact namesOf_phase3_fold env psH _ dbg

theorem ensureVars_WF (dbg : DbgClientState) (psH : Nat) (hwf : DbgWF dbg) :
    DbgWF (ensureVars dbg psH) := by
  unfold ensureVars
  split
  · exact HandleStore.WF.update _ _ _ hwf
  · exact hwf

theorem ensureVars_isSome (dbg : DbgClientState) (psH : Nat)
    (hs : ((dbg.varHandles.get psH)).isSome) :
    (((ensureVars dbg psH).varHandles.get psH)).isSome := by
  unfold ensureVars
  split
  · show (((dbg.varHandles.update psH _).get psH)).isSome
    rw [HandleStore.get_update_self]
    simpa using hs
  · exact hs

theorem namesOf_ensureVars (dbg : DbgClientState) (psH : Nat) :
    namesOf (ensureVars dbg psH) psH = namesOf dbg psH := by
  unfold ensureVars
  split
  · rename_i hnone
    unfold namesOf varsOf
    rw [HandleStore.get_update_self]
    rcases hg : dbg.varHandles.get psH with _ | ps
    · rfl
    · rw [hg] at hnone
      rcases hv : ps.vars with _ | l
      · simp [hv]
      · simp [hv] at hnone
  · rfl

/-- `resolvePropertySetVariables` appends exactly one variable per
key/value pair, named by the keys, to the target property set (whatever the
outcomes of the `toString` / constructor batches). -/
theorem resolvePSV_names (env : Env) (O : DukProto) (dbg : DbgClientState)
    (psH : Nat) (keys : List String) (values : List DValue)
    (ps : PropertySet) (sc : DukScope) (fr : DukStackFrame)
    (hwf : DbgWF dbg) (hps : dbg.varHandles.get psH = some ps)
    (hsc : dbg.scopes.get ps.scopeHandle = some sc)
    (hfr : dbg.stackFrames.get sc.stackFrameHandle = some fr) :
    namesOf (resolvePSVModel env O dbg psH keys values).1 psH =
      namesOf dbg psH ++ (keys.zip values).map (fun p => p.1) := by
  unfold resolvePSVModel
  simp only [hps, hsc, Option.some_bind, hfr]
  have hd1wf : DbgWF (ensureVars dbg psH) := ensureVars_WF dbg psH hwf
  have hd1s : (((ensureVars dbg psH).varHandles.get psH)).isSome :=
    ensureVars_isSome dbg psH (by rw [hps]; rfl)
  have hd1n := namesOf_ensureVars dbg psH
  have hph1 := resolvePhase1_names env psH ps.scopeHandle (keys.zip values)
    (ensureVars dbg psH) hd1wf hd1s
  rcases hp1 : resolvePhase1 env (ensureVars dbg psH) psH ps.scopeHandle
      (keys.zip values) with ⟨dbgP, q⟩
  rw [hp1] at hph1
  rcases hph1 with ⟨hn1, _, _⟩
  simp only [] at hn1
  by_cases hq : q.isEmpty
  · rw [if_pos hq]
    simp only [hn1, hd1n]
  · rw [if_neg hq]
    have hn2 := namesOf_resolvePhase2 env O dbgP psH fr.depth q
    rcases hp2 : resolvePhase2 env O dbgP psH fr.depth q with ⟨dbg2, ctorQ⟩
    rw [hp2] at hn2
    rcases ctorQ with _ | cq
    · simp only [hn2, hn1, hd1n]
    · simp only []
      by_cases hcq : cq.isEmpty
      · rw [if_pos hcq]
        simp only [hn2, hn1, hd1n]
      · rw [if_neg hcq]
        have hn3 := namesOf_resolvePhase3 env O dbg2 psH cq
        rcases hp3 : resolvePhase3 env O dbg2 psH cq with ⟨dbg3, ok3⟩
        rw [hp3] at hn3
        simp only [hn3, hn2, hn1, hd1n]


/-! ## Pointer-cache deduplication (`ptrHandles`) -/

theorem update_entries_length (s : HandleStore α) (k : Nat) (f : α → α) :
    (s.update k f).entries.length = s.entries.length := by
  simp [HandleStore.update]

theorem createPropSet_entries_length (dbg : DbgClientState) (ps : PropertySet) :
    (dbg.createPropSet ps).2.varHandles.entries.length =
      dbg.varHandles.entries.length + 1 := by
  unfold DbgClientState.createPropSet
  rcases hc : dbg.varHandles.create ps with ⟨h, vh⟩
  have hvh : vh = (dbg.varHandles.create ps).2 := (congrArg Prod.snd hc).symm
  show ((vh.update h _)).entries.length = _
  rw [update_entries_length, hvh]
  simp [HandleStore.create]

theorem pushVar_entries_length (dbg : DbgClientState) (psH : Nat) (v : Variable) :
    (dbg.pushVar psH v).varHandles.entries.length =
      dbg.varHandles.entries.length := by
  unfold DbgClientState.pushVar
  exact update_entries_length _ _ _

theorem setDisplayName_entries_length (dbg : DbgClientState) (h : Nat) (d : String) :
    (dbg.setDisplayName h d).varHandles.entries.length =
      dbg.varHandles.entries.length := by
  unfold DbgClientState.setDisplayName
  exact update_entries_length _ _ _

theorem bind_vars_pushVar (dbg : DbgClientState) (psH : Nat) (v : Variable)
    (h : ((dbg.varHandles.get psH)).isSome) :
    ((dbg.pushVar psH v).varHandles.get psH).bind (fun ps => ps.vars) =
      some (varsOf dbg psH ++ [v]) := by
  unfold DbgClientState.pushVar varsOf
  rw [HandleStore.get_update_self]
  rcases hg : dbg.varHandles.get psH with _ | q
  · rw [hg] at h
    simp at h
  · cases hv : q.vars <;> simp [hv]

theorem refAt_of_bind_vars (dbg : DbgClientState) (psH idx : Nat)
    (L : List Variable)
    (hb : ((dbg.varHandles.get psH)).bind (fun ps => ps.vars) = some L) :
    refAt dbg psH idx = (L.get? idx).map (fun v => v.variablesReference) := by
  unfold refAt DbgClientState.varAt
  rw [hb]
  rfl

/-- A key whose value's pointer is already cached with a resolved display
name reuses the cached handle and display name: the store gains no new set,
nothing is queued. -/
theorem resolvePhase1_hit (env : Env) (dbg : DbgClientState) (psH scopeH : Nat)
    (k : String) (c : Nat) (p : TValPointer) (h0 : Nat) (d : String)
    (hhit : cacheLookup dbg (p.toStr) = some h0)
    (hdisp : ((dbg.varHandles.get h0)).bind (fun ps => ps.displayName) = some d) :
    resolvePhase1 env dbg psH scopeH [(k, DValue.objv c p)] =
      (dbg.pushVar psH ⟨k, d, h0⟩, []) := by
  unfold cacheLookup at hhit
  simp only [resolvePhase1, hhit, hdisp]

/-- A cached pointer whose set has no display name yet still reuses the
cached handle, and queues the key for the `toString` batch. -/
theorem resolvePhase1_hit_pending (env : Env) (dbg : DbgClientState)
    (psH scopeH : Nat) (k : String) (c : Nat) (p : TValPointer) (h0 : Nat)
    (hhit : cacheLookup dbg (p.toStr) = some h0)
    (hdisp : ((dbg.varHandles.get h0)).bind (fun ps => ps.displayName) = none) :
    resolvePhase1 env dbg psH scopeH [(k, DValue.objv c p)] =
      (dbg.pushVar psH ⟨k, "", h0⟩,
       [(k, ((((dbg.varHandles.get psH)).bind (fun ps => ps.vars)).getD []).length)]) := by
  unfold cacheLookup at hhit
  simp only [resolvePhase1, hhit, hdisp]

/-- The miss branch of the phase-1 loop, spelled out: a fresh property set
is registered at the store's next handle, cached under the pointer's
canonical string, named immediately for built-in classes and queued for
`toString` otherwise. -/
theorem resolvePhase1_miss_cons (env : Env) (dbg : DbgClientState)
    (psH scopeH : Nat) (k : String) (c : Nat) (p : TValPointer)
    (rest : List (String × DValue))
    (hmiss : cacheLookup dbg (p.toStr) = none) :
    resolvePhase1 env dbg psH scopeH ((k, DValue.objv c p) :: rest) =
      (if c ≠ env.objectClassId then
        resolvePhase1 env
          ((({ (dbg.createPropSet
                { type := PropertySetType.Object, handle := 0, scopeHandle := scopeH,
                  displayName := none, heapPtr := some p, vars := none }).2 with
              ptrHandles := ((p.toStr, dbg.varHandles.nextHandle) :: dbg.ptrHandles) }).setDisplayName
            (dbg.varHandles.nextHandle) (env.classNames c)).pushVar psH
            ⟨k, env.classNames c, dbg.varHandles.nextHandle⟩) psH scopeH rest
      else
        ((resolvePhase1 env
            (({ (dbg.createPropSet
                { type := PropertySetType.Object, handle := 0, scopeHandle := scopeH,
                  displayName := none, heapPtr := some p, vars := none }).2 with
              ptrHandles := ((p.toStr, dbg.varHandles.nextHandle) :: dbg.ptrHandles) }).pushVar psH
            ⟨k, "", dbg.varHandles.nextHandle⟩) psH scopeH rest).1,
         ((k, ((((dbg.varHandles.get psH)).bind (fun ps => ps.vars)).getD []).length) ::
          (resolvePhase1 env
            (({ (dbg.createPropSet
                { type := PropertySetType.Object, handle := 0, scopeHandle := scopeH,
                  displayName := none, heapPtr := some p, vars := none }).2 with
              ptrHandles := ((p.toStr, dbg.varHandles.nextHandle) :: dbg.ptrHandles) }).pushVar psH
            ⟨k, "", dbg.varHandles.nextHandle⟩) psH scopeH rest).2))) := by
  unfold cacheLookup at hmiss
  simp only [resolvePhase1, hmiss]
  rfl


/-- C6: within one pause cycle two object values with the same canonical
pointer string resolve to the same property set: a run over two such
key/value pairs registers a single fresh set at one handle `h`, both pushed
variables reference `h`, the pointer cache maps the canonical string to
`h`, and any later resolution of the same pointer inside the cycle reuses
`h` together with the resolved display name instead of creating a new
set. -/
theorem c6_pointer_cache_dedup (env : Env) (dbg : DbgClientState)
    (psH scopeH : Nat) (k1 k2 : String) (c1 c2 : Nat) (p1 p2 : TValPointer)
    (ps : PropertySet) (l : List Variable) (dbg2 : DbgClientState)
    (q : List (String × Nat))
    (hwf : DbgWF dbg) (hps : dbg.varHandles.get psH = some ps)
    (hvars : ps.vars = some l)
    (hmiss : cacheLookup dbg (p1.toStr) = none)
    (hptr : p2.toStr = p1.toStr)
    (heq : resolvePhase1 env dbg psH scopeH
        [(k1, DValue.objv c1 p1), (k2, DValue.objv c2 p2)] = (dbg2, q)) :
    ∃ h,
      refAt dbg2 psH l.length = some h ∧
      refAt dbg2 psH (l.length + 1) = some h ∧
      cacheLookup dbg2 (p2.toStr) = some h ∧
      dbg2.varHandles.entries.length = dbg.varHandles.entries.length + 1 ∧
      (∀ (k : String) (c : Nat) (p : TValPointer) (d : String),
        p.toStr = p1.toStr →
        ((dbg2.varHandles.get h)).bind (fun s => s.displayName) = some d →
        resolvePhase1 env dbg2 psH scopeH [(k, DValue.objv c p)] =
          (dbg2.pushVar psH ⟨k, d, h⟩, [])) := by
  refine ⟨dbg.varHandles.nextHandle, ?_⟩
  have hs : ((dbg.varHandles.get psH)).isSome := by rw [hps]; rfl
  have hlt : psH < dbg.varHandles.nextHandle :=
    HandleStore.lt_of_get_isSome _ _ hwf hs
  have hne : psH ≠ dbg.varHandles.nextHandle := Nat.ne_of_lt hlt
  rw [resolvePhase1_miss_cons env dbg psH scopeH k1 c1 p1 _ hmiss] at heq
  by_cases hc1 : c1 = env.objectClassId
  · -- generic object class: the first key is queued for `toString`, the
    -- second key is a pending cache hit
    rw [if_neg (not_not_intro hc1)] at heq
    set dbgB : DbgClientState :=
      { (dbg.createPropSet
          { type := PropertySetType.Object, handle := 0, scopeHandle := scopeH,
            displayName := none, heapPtr := some p1, vars := none }).2 with
        ptrHandles := ((p1.toStr, dbg.varHandles.nextHandle) :: dbg.ptrHandles) }
      with hdbgB
    have hgB : dbgB.varHandles.get psH = some ps := by
      rw [hdbgB]
      show (dbg.createPropSet _).2.varHandles.get psH = some ps
      rw [get_createPropSet_other dbg _ psH hwf hs, hps]
    have hsB : ((dbgB.varHandles.get psH)).isSome := by rw [hgB]; rfl
    have hgBH : dbgB.varHandles.get dbg.varHandles.nextHandle =
        some { type := PropertySetType.Object, handle := dbg.varHandles.nextHandle,
               scopeHandle := scopeH, displayName := none, heapPtr := some p1,
               vars := none } := by
      rw [hdbgB]
      show (dbg.createPropSet _).2.varHandles.get dbg.varHandles.nextHandle = _
      have hself := get_createPropSet_self dbg
        { type := PropertySetType.Object, handle := 0, scopeHandle := scopeH,
          displayName := none, heapPtr := some p1, vars := none }
      rw [createPropSet_fst] at hself
      rw [hself]
    set dbgD : DbgClientState :=
      dbgB.pushVar psH ⟨k1, "", dbg.varHandles.nextHandle⟩ with hdbgD
    have hsD : ((dbgD.varHandles.get psH)).isSome := by
      rw [hdbgD]
      exact pushVar_isSome dbgB psH _ hsB
    have hcacheD : cacheLookup dbgD (p2.toStr) = some dbg.varHandles.nextHandle := by
      unfold cacheLookup
      have hp : dbgD.ptrHandles =
          (p1.toStr, dbg.varHandles.nextHandle) :: dbg.ptrHandles := by
        rw [hdbgD, pushVar_ptrHandles, hdbgB]
      rw [hp, hptr]
      simp [List.find?_cons]
    have hdispD : ((dbgD.varHandles.get dbg.varHandles.nextHandle)).bind
        (fun s => s.displayName) = none := by
      have hg : dbgD.varHandles.get dbg.varHandles.nextHandle =
          dbgB.varHandles.get dbg.varHandles.nextHandle := by
        rw [hdbgD]
        show (dbgB.varHandles.update psH _).get _ = _
        exact HandleStore.get_update_ne _ _ _ _ (Ne.symm hne)
      rw [hg, hgBH]
      rfl
    have hvD : varsOf dbgD psH = l ++ [⟨k1, "", dbg.varHandles.nextHandle⟩] := by
      rw [hdbgD, varsOf_pushVar dbgB psH _ hsB]
      unfold varsOf
      simp only [hgB, Option.some_bind, hvars, Option.getD_some]
    rw [resolvePhase1_hit_pending env dbgD psH scopeH k2 c2 p2
        dbg.varHandles.nextHandle hcacheD hdispD] at heq
    have hdbg2 : dbg2 = dbgD.pushVar psH ⟨k2, "", dbg.varHandles.nextHandle⟩ :=
      (congrArg Prod.fst heq).symm
    subst hdbg2
    refine ⟨?_, ?_, ?_, ?_, ?_⟩
    · rw [refAt_of_bind_vars _ _ _ _ (bind_vars_pushVar dbgD psH _ hsD)]
      rw [hvD, List.append_assoc, List.get?_append_right (Nat.le_refl _)]
      simp
    · rw [refAt_of_bind_vars _ _ _ _ (bind_vars_pushVar dbgD psH _ hsD)]
      rw [hvD, List.append_assoc,
          List.get?_append_right (Nat.le_succ_of_le (Nat.le_refl _))]
      simp
    · exact hcacheD
    · rw [pushVar_entries_length, hdbgD, pushVar_entries_length, hdbgB]
      show (dbg.createPropSet _).2.varHandles.entries.length = _
      exact createPropSet_entries_length dbg _
    · intro k c p d hp hd
      refine resolvePhase1_hit env _ psH scopeH k c p dbg.varHandles.nextHandle d ?_ hd
      show cacheLookup _ (p.toStr) = _
      rw [hp, ← hptr]
      exact hcacheD
  · -- built-in class: the display name is resolved immediately, the second
    -- key is a resolved cache hit
    rw [if_pos hc1] at heq
    set dbgB : DbgClientState :=
      { (dbg.createPropSet
          { type := PropertySetType.Object, handle := 0, scopeHandle := scopeH,
            displayName := none, heapPtr := some p1, vars := none }).2 with
        ptrHandles := ((p1.toStr, dbg.varHandles.nextHandle) :: dbg.ptrHandles) }
      with hdbgB
    have hgB : dbgB.varHandles.get psH = some ps := by
      rw [hdbgB]
      show (dbg.createPropSet _).2.varHandles.get psH = some ps
      rw [get_createPropSet_other dbg _ psH hwf hs, hps]
    have hsB : ((dbgB.varHandles.get psH)).isSome := by rw [hgB]; rfl
    have hgBH : dbgB.varHandles.get dbg.varHandles.nextHandle =
        some { type := PropertySetType.Object, handle := dbg.varHandles.nextHandle,
               scopeHandle := scopeH, displayName := none, heapPtr := some p1,
               vars := none } := by
      rw [hdbgB]
      show (dbg.createPropSet _).2.varHandles.get dbg.varHandles.nextHandle = _
      have hself := get_createPropSet_self dbg
        { type := PropertySetType.Object, handle := 0, scopeHandle := scopeH,
          displayName := none, heapPtr := some p1, vars := none }
      rw [createPropSet_fst] at hself
      rw [hself]
    have hsC : (((dbgB.setDisplayName dbg.varHandles.nextHandle
        (env.classNames c1)).varHandles.get psH)).isSome :=
      setDisplayName_isSome dbgB _ _ psH hsB
    set dbgD : DbgClientState :=
      (dbgB.setDisplayName dbg.varHandles.nextHandle (env.classNames c1)).pushVar
        psH ⟨k1, env.classNames c1, dbg.varHandles.nextHandle⟩ with hdbgD
    have hsD : ((dbgD.varHandles.get psH)).isSome := by
      rw [hdbgD]
      exact pushVar_isSome _ psH _ hsC
    have hcacheD : cacheLookup dbgD (p2.toStr) = some dbg.varHandles.nextHandle := by
      unfold cacheLookup
      have hp : dbgD.ptrHandles =
          (p1.toStr, dbg.varHandles.nextHandle) :: dbg.ptrHandles := by
        rw [hdbgD, pushVar_ptrHandles, setDisplayName_ptrHandles, hdbgB]
      rw [hp, hptr]
      simp [List.find?_cons]
    have hdispD : ((dbgD.varHandles.get dbg.varHandles.nextHandle)).bind
        (fun s => s.displayName) = some (env.classNames c1) := by
      have hg : dbgD.varHandles.get dbg.varHandles.nextHandle =
          ((dbgB.setDisplayName dbg.varHandles.nextHandle
            (env.classNames c1)).varHandles.get dbg.varHandles.nextHandle) := by
        rw [hdbgD]
        show ((dbgB.setDisplayName _ _).varHandles.update psH _).get _ = _
        exact HandleStore.get_update_ne _ _ _ _ (Ne.symm hne)
      have hg2 : ((dbgB.setDisplayName dbg.varHandles.nextHandle
          (env.classNames c1)).varHandles.get dbg.varHandles.nextHandle) =
          (dbgB.varHandles.get dbg.varHandles.nextHandle).map
            (fun p => { p with displayName := some (env.classNames c1) }) := by
        show (dbgB.varHandles.update _ _).get _ = _
        exact HandleStore.get_update_self _ _ _
      rw [hg, hg2, hgBH]
      rfl
    have hvD : varsOf dbgD psH =
        l ++ [⟨k1, env.classNames c1, dbg.varHandles.nextHandle⟩] := by
      rw [hdbgD, varsOf_pushVar _ psH _ hsC, varsOf_setDisplayName]
      unfold varsOf
      simp only [hgB, Option.some_bind, hvars, Option.getD_some]
    rw [resolvePhase1_hit env dbgD psH scopeH k2 c2 p2
        dbg.varHandles.nextHandle (env.classNames c1) hcacheD hdispD] at heq
    have hdbg2 : dbg2 =
        dbgD.pushVar psH ⟨k2, env.classNames c1, dbg.varHandles.nextHandle⟩ :=
      (congrArg Prod.fst heq).symm
    subst hdbg2
    refine ⟨?_, ?_, ?_, ?_, ?_⟩
    · rw [refAt_of_bind_vars _ _ _ _ (bind_vars_pushVar dbgD psH _ hsD)]
      rw [hvD, List.append_assoc, List.get?_append_right (Nat.le_refl _)]
      simp
    · rw [refAt_of_bind_vars _ _ _ _ (bind_vars_pushVar dbgD psH _ hsD)]
      rw [hvD, List.append_assoc,
          List.get?_append_right (Nat.le_succ_of_le (Nat.le_refl _))]
      simp
    · exact hcacheD
    · rw [pushVar_entries_length, hdbgD, pushVar_entries_length,
          setDisplayName_entries_length, hdbgB]
      show (dbg.createPropSet _).2.varHandles.entries.length = _
      exact createPropSet_entries_length dbg _
    · intro k c p d hp hd
      refine resolvePhase1_hit env _ psH scopeH k c p dbg.varHandles.nextHandle d ?_ hd
      show cacheLookup _ (p.toStr) = _
      rw [hp, ← hptr]
      exact hcacheD


theorem c6_pointer_cache_dedup_witness :
    ∃ h,
      refAt (resolvePhase1 testEnv c7Dbg 1000 900
          [("a", DValue.objv 5 ⟨4, 187, 0⟩), ("b", DValue.objv 1 ⟨4, 187, 0⟩)]).1
        1000 0 = some h ∧
      refAt (resolvePhase1 testEnv c7Dbg 1000 900
          [("a", DValue.objv 5 ⟨4, 187, 0⟩), ("b", DValue.objv 1 ⟨4, 187, 0⟩)]).1
        1000 1 = some h ∧
      cacheLookup (resolvePhase1 testEnv c7Dbg 1000 900
          [("a", DValue.objv 5 ⟨4, 187, 0⟩), ("b", DValue.objv 1 ⟨4, 187, 0⟩)]).1
        ((⟨4, 187, 0⟩ : TValPointer).toStr) = some h ∧
      (resolvePhase1 testEnv c7Dbg 1000 900
          [("a", DValue.objv 5 ⟨4, 187, 0⟩),
           ("b", DValue.objv 1 ⟨4, 187, 0⟩)]).1.varHandles.entries.length =
        c7Dbg.varHandles.entries.length + 1 ∧
      (∀ (k : String) (c : Nat) (p : TValPointer) (d : String),
        p.toStr = (⟨4, 187, 0⟩ : TValPointer).toStr →
        (((resolvePhase1 testEnv c7Dbg 1000 900
            [("a", DValue.objv 5 ⟨4, 187, 0⟩),
             ("b", DValue.objv 1 ⟨4, 187, 0⟩)]).1.varHandles.get h)).bind
          (fun s => s.displayName) = some d →
        resolvePhase1 testEnv (resolvePhase1 testEnv c7Dbg 1000 900
            [("a", DValue.objv 5 ⟨4, 187, 0⟩), ("b", DValue.objv 1 ⟨4, 187, 0⟩)]).1
            1000 900 [(k, DValue.objv c p)] =
          ((resolvePhase1 testEnv c7Dbg 1000 900
            [("a", DValue.objv 5 ⟨4, 187, 0⟩),
             ("b", DValue.objv 1 ⟨4, 187, 0⟩)]).1.pushVar 1000 ⟨k, d, h⟩, [])) :=
  c6_pointer_cache_dedup testEnv c7Dbg 1000 900 "a" "b" 5 1 ⟨4, 187, 0⟩ ⟨4, 187, 0⟩
    { type := PropertySetType.Scope, handle := 1000, scopeHandle := 900,
      displayName := none, heapPtr := none, vars := some [] } []
    (resolvePhase1 testEnv c7Dbg 1000 900
      [("a", DValue.objv 5 ⟨4, 187, 0⟩), ("b", DValue.objv 1 ⟨4, 187, 0⟩)]).1
    (resolvePhase1 testEnv c7Dbg 1000 900
      [("a", DValue.objv 5 ⟨4, 187, 0⟩), ("b", DValue.objv 1 ⟨4, 187, 0⟩)]).2
    (by
      show ∀ e ∈ c7Dbg.varHandles.entries, e.1 < c7Dbg.varHandles.nextHandle
      decide)
    rfl rfl rfl rfl rfl


/-! ## Display-name resolution (C7) -/

theorem strContainsSub_of_startsWith (s pat : String)
    (h : listStartsWith s.toList pat.toList = true) :
    strContainsSub s pat = true := by
  unfold strContainsSub strLastIndexOf
  rcases hg : (subOccurrences s.toList pat.toList).getLast? with _ | i
  · exfalso
    have h0 : 0 ∈ subOccurrences s.toList pat.toList := by
      unfold subOccurrences
      refine List.mem_filter.mpr ⟨List.mem_range.mpr (Nat.succ_pos _), ?_⟩
      simpa using h
    rw [List.getLast?_eq_none_iff] at hg
    rw [hg] at h0
    exact List.not_mem_nil _ h0
  · simp

theorem objTag_inj (x : String) (h : "[object " ++ x ++ "]" = "[object Object]") :
    x = "Object" := by
  have hd : "[object ".data ++ (x.data ++ "]".data) =
      "[object ".data ++ ("Object".data ++ "]".data) := by
    have h2 : ("[object " ++ x ++ "]").data = ("[object " ++ "Object" ++ "]").data :=
      congrArg String.data h
    simpa [String.data_append, List.append_assoc] using h2
  have hx : x.data = "Object".data :=
    List.append_cancel_right (List.append_cancel_left hd)
  cases x
  exact congrArg String.mk hx

theorem jsSubstringToLast_objTag (x : String) :
    jsSubstringToLast ("[object " ++ x ++ "]") 8 = x := by
  unfold jsSubstringToLast
  have hl : ("[object " ++ x ++ "]").toList =
      "[object ".toList ++ (x.toList ++ "]".toList) := by
    show ("[object " ++ x ++ "]").data = _
    simp [String.data_append, List.append_assoc]
  rw [hl, List.drop_left' (by rfl)]
  show String.mk ((x.data ++ [']']).dropLast) = x
  rw [List.dropLast_concat]

/-- The resolve pipeline on the concrete post-`expandScopeProperties`
state, with the concrete lookups reduced. -/
theorem resolvePSV_c7 (env : Env) (O : DukProto) (ks : List String)
    (vs : List DValue) :
    resolvePSVModel env O c7Dbg 1000 ks vs =
      (if (resolvePhase1 env c7Dbg 1000 900 (ks.zip vs)).2.isEmpty then
        ((resolvePhase1 env c7Dbg 1000 900 (ks.zip vs)).1, true)
      else
        match resolvePhase2 env O (resolvePhase1 env c7Dbg 1000 900 (ks.zip vs)).1
            1000 (-1) (resolvePhase1 env c7Dbg 1000 900 (ks.zip vs)).2 with
        | (dbg, none) => (dbg, false)
        | (dbg, some ctorQ) =>
          if ctorQ.isEmpty then (dbg, true)
          else resolvePhase3 env O dbg 1000 ctorQ) := rfl

/-- The pipeline on a single generic-class object value, reduced to the
`toString` batch over the freshly registered set. -/
theorem resolvePSV_c7_obj (env : Env) (O : DukProto) (k : String)
    (ptr : TValPointer) :
    resolvePSVModel env O c7Dbg 1000 [k] [DValue.objv env.objectClassId ptr] =
      (match resolvePhase2 env O (c7ObjDbg k ptr) 1000 (-1) [(k, 0)] with
       | (dbg, none) => (dbg, false)
       | (dbg, some ctorQ) =>
         if ctorQ.isEmpty then (dbg, true)
         else resolvePhase3 env O dbg 1000 ctorQ) := by
  rw [resolvePSV_c7]
  simp only [List.zip_cons_cons, List.zip_nil_right]
  rw [resolvePhase1_miss_cons env c7Dbg 1000 900 k env.objectClassId ptr [] rfl,
      if_neg (not_not_intro rfl)]
  rfl

/-- The `toString` batch over the fresh set, one pending entry, resolved. -/
theorem resolvePhase2_c7 (env : Env) (O : DukProto) (k : String)
    (ptr : TValPointer) (r : DukEvalResponse)
    (hts : O.eval (k ++ ".toString()") (some (-1)) = Except.ok r) :
    resolvePhase2 env O (c7ObjDbg k ptr) 1000 (-1) [(k, 0)] =
      ((applyToStrResult env (c7ObjDbg k ptr) 1000 (k, 0) r).1,
       some ((applyToStrResult env (c7ObjDbg k ptr) 1000 (k, 0) r).2)) := by
  unfold resolvePhase2
  simp only [List.map_cons, List.map_nil, hts]
  simp only [exceptsToList, Option.map_some]
  rfl

/-- An unsuccessful `toString` eval resolves the name to `"Object"`. -/
theorem applyToStr_c7_fail (env : Env) (k : String) (ptr : TValPointer)
    (r : DukEvalResponse) (hrs : r.success = false) :
    applyToStrResult env (c7ObjDbg k ptr) 1000 (k, 0) r =
      (c7DoneDbg k ptr "Object", []) := by
  unfold applyToStrResult
  rw [hrs]
  rfl

/-- A `"[object Object]"` result records the generic tag and queues the
constructor-name lookup. -/
theorem applyToStr_c7_objobj (env : Env) (k : String) (ptr : TValPointer) :
    applyToStrResult env (c7ObjDbg k ptr) 1000 (k, 0)
        ⟨true, DValue.strv "[object Object]"⟩ =
      (c7DoneDbg k ptr "[object Object]", [(k, 0)]) := by
  rfl

/-- Any other `"[object X]"` result is stripped to `X`. -/
theorem applyToStr_c7_objtag (env : Env) (k : String) (ptr : TValPointer)
    (x : String) (hx : x ≠ "Object") :
    applyToStrResult env (c7ObjDbg k ptr) 1000 (k, 0)
        ⟨true, DValue.strv ("[object " ++ x ++ "]")⟩ =
      (c7DoneDbg k ptr x, []) := by
  have hcont : strContainsSub ("[object " ++ x ++ "]") "[object" = true :=
    strContainsSub_of_startsWith _ _ rfl
  have hne : ("[object " ++ x ++ "]" = "[object Object]") = False :=
    eq_false (fun h => hx (objTag_inj x h))
  unfold applyToStrResult
  simp only [dvalToString, hcont, hne, eq_self_iff_true, true_and, and_false,
             if_true, if_false, jsSubstringToLast_objTag]
  rfl

/-- The constructor-name batch over one queued entry, eval successful. -/
theorem resolvePhase3_c7 (env : Env) (O : DukProto) (k : String)
    (ptr : TValPointer) (name : String) (r2 : DukEvalResponse)
    (hctor : O.eval ("String(" ++ k ++ ".constructor.name)") none = Except.ok r2)
    (hr2 : r2.success = true) :
    resolvePhase3 env O (c7DoneDbg k ptr name) 1000 [(k, 0)] =
      ((c7DoneDbg k ptr name).setVarValueAt 1000 0 (dvalCastString env r2.result),
       true) := by
  unfold resolvePhase3
  simp only [List.map_cons, List.map_nil, hctor]
  show ((([((k, 0) : String × Nat)].zip [r2]).foldl (resolvePhase3Step env 1000)
      (c7DoneDbg k ptr name)), true) = _
  simp only [List.zip_cons_cons, List.zip_nil_right, List.foldl_cons, List.foldl_nil]
  unfold resolvePhase3Step
  rw [hr2]
  rfl


/-- C7: display-name resolution for a newly registered object property set.
A built-in (non-generic) class takes its class-table name directly; a
generic-class object evaluates `toString()` in the runtime: an unsuccessful
eval yields the label "Object", the exact result "[object Object]" falls
back to evaluating the constructor name, any other "[object X]" result is
stripped to `X`; primitive values are formatted directly, strings quoted,
others stringified. -/
theorem c7_display_name_resolution (env : Env) (O : DukProto) (k : String)
    (cid : Nat) (ptr : TValPointer) (x s : String) (qq : ℚ)
    (r r2 : DukEvalResponse) :
    (cid ≠ env.objectClassId →
      (resolvePSVModel env O c7Dbg 1000 [k] [DValue.objv cid ptr]).2 = true ∧
      (resolvePSVModel env O c7Dbg 1000 [k] [DValue.objv cid ptr]).1.varAt 1000 0 =
        some ⟨k, env.classNames cid, 1001⟩ ∧
      (((resolvePSVModel env O c7Dbg 1000 [k]
          [DValue.objv cid ptr]).1.varHandles.get 1001)).bind
        (fun ps => ps.displayName) = some (env.classNames cid)) ∧
    (O.eval (k ++ ".toString()") (some (-1)) = Except.ok r → r.success = false →
      (resolvePSVModel env O c7Dbg 1000 [k]
        [DValue.objv env.objectClassId ptr]).2 = true ∧
      (resolvePSVModel env O c7Dbg 1000 [k]
        [DValue.objv env.objectClassId ptr]).1.varAt 1000 0 =
        some ⟨k, "Object", 1001⟩ ∧
      (((resolvePSVModel env O c7Dbg 1000 [k]
          [DValue.objv env.objectClassId ptr]).1.varHandles.get 1001)).bind
        (fun ps => ps.displayName) = some "Object") ∧
    (O.eval (k ++ ".toString()") (some (-1)) =
        Except.ok ⟨true, DValue.strv "[object Object]"⟩ →
      O.eval ("String(" ++ k ++ ".constructor.name)") none = Except.ok r2 →
      r2.success = true →
      (resolvePSVModel env O c7Dbg 1000 [k]
        [DValue.objv env.objectClassId ptr]).2 = true ∧
      (resolvePSVModel env O c7Dbg 1000 [k]
        [DValue.objv env.objectClassId ptr]).1.varAt 1000 0 =
        some ⟨k, dvalCastString env r2.result, 1001⟩ ∧
      (((resolvePSVModel env O c7Dbg 1000 [k]
          [DValue.objv env.objectClassId ptr]).1.varHandles.get 1001)).bind
        (fun ps => ps.displayName) = some "[object Object]") ∧
    (O.eval (k ++ ".toString()") (some (-1)) =
        Except.ok ⟨true, DValue.strv ("[object " ++ x ++ "]")⟩ →
      x ≠ "Object" →
      (resolvePSVModel env O c7Dbg 1000 [k]
        [DValue.objv env.objectClassId ptr]).2 = true ∧
      (resolvePSVModel env O c7Dbg 1000 [k]
        [DValue.objv env.objectClassId ptr]).1.varAt 1000 0 =
        some ⟨k, x, 1001⟩ ∧
      (((resolvePSVModel env O c7Dbg 1000 [k]
          [DValue.objv env.objectClassId ptr]).1.varHandles.get 1001)).bind
        (fun ps => ps.displayName) = some x) ∧
    ((resolvePSVModel env O c7Dbg 1000 [k] [DValue.strv s]).2 = true ∧
     (resolvePSVModel env O c7Dbg 1000 [k] [DValue.strv s]).1.varAt 1000 0 =
       some ⟨k, "\"" ++ s ++ "\"", 0⟩ ∧
     (resolvePSVModel env O c7Dbg 1000 [k] [DValue.numv qq]).2 = true ∧
     (resolvePSVModel env O c7Dbg 1000 [k] [DValue.numv qq]).1.varAt 1000 0 =
       some ⟨k, env.numberToString qq, 0⟩) := by
  refine ⟨?_, ?_, ?_, ?_, ?_⟩
  · intro hcid
    rw [resolvePSV_c7]
    simp only [List.zip_cons_cons, List.zip_nil_right]
    rw [resolvePhase1_miss_cons env c7Dbg 1000 900 k cid ptr [] rfl, if_pos hcid]
    exact ⟨rfl, rfl, rfl⟩
  · intro hts hrs
    rw [resolvePSV_c7_obj, resolvePhase2_c7 env O k ptr r hts,
        applyToStr_c7_fail env k ptr r hrs]
    exact ⟨rfl, rfl, rfl⟩
  · intro hts hctor hr2
    rw [resolvePSV_c7_obj, resolvePhase2_c7 env O k ptr _ hts, applyToStr_c7_objobj]
    refine ⟨?_, ?_, ?_⟩
    · show (resolvePhase3 env O (c7DoneDbg k ptr "[object Object]") 1000
        [(k, 0)]).2 = true
      rw [resolvePhase3_c7 env O k ptr "[object Object]" r2 hctor hr2]
    · show (resolvePhase3 env O (c7DoneDbg k ptr "[object Object]") 1000
        [(k, 0)]).1.varAt 1000 0 = some ⟨k, dvalCastString env r2.result, 1001⟩
      rw [resolvePhase3_c7 env O k ptr "[object Object]" r2 hctor hr2]
      rfl
    · show (((resolvePhase3 env O (c7DoneDbg k ptr "[object Object]") 1000
        [(k, 0)]).1.varHandles.get 1001)).bind (fun ps => ps.displayName) =
        some "[object Object]"
      rw [resolvePhase3_c7 env O k ptr "[object Object]" r2 hctor hr2]
      rfl
  · intro hts hx
    rw [resolvePSV_c7_obj, resolvePhase2_c7 env O k ptr _ hts,
        applyToStr_c7_objtag env k ptr x hx]
    exact ⟨rfl, rfl, rfl⟩
  · exact ⟨rfl, rfl, rfl, rfl⟩

theorem c7_display_name_resolution_witness :
    ((resolvePSVModel testEnv okProto c7Dbg 1000 ["v"]
        [DValue.objv 5 ⟨4, 187, 0⟩]).2 = true ∧
     (resolvePSVModel testEnv okProto c7Dbg 1000 ["v"]
        [DValue.objv 5 ⟨4, 187, 0⟩]).1.varAt 1000 0 =
       some ⟨"v", testEnv.classNames 5, 1001⟩ ∧
     (((resolvePSVModel testEnv okProto c7Dbg 1000 ["v"]
         [DValue.objv 5 ⟨4, 187, 0⟩]).1.varHandles.get 1001)).bind
       (fun ps => ps.displayName) = some (testEnv.classNames 5)) ∧
    ((resolvePSVModel testEnv toStrFailProto c7Dbg 1000 ["v"]
        [DValue.objv testEnv.objectClassId ⟨4, 187, 0⟩]).2 = true ∧
     (resolvePSVModel testEnv toStrFailProto c7Dbg 1000 ["v"]
        [DValue.objv testEnv.objectClassId ⟨4, 187, 0⟩]).1.varAt 1000 0 =
       some ⟨"v", "Object", 1001⟩ ∧
     (((resolvePSVModel testEnv toStrFailProto c7Dbg 1000 ["v"]
         [DValue.objv testEnv.objectClassId ⟨4, 187, 0⟩]).1.varHandles.get
        1001)).bind (fun ps => ps.displayName) = some "Object") ∧
    ((resolvePSVModel testEnv ctorProto c7Dbg 1000 ["v"]
        [DValue.objv testEnv.objectClassId ⟨4, 187, 0⟩]).2 = true ∧
     (resolvePSVModel testEnv ctorProto c7Dbg 1000 ["v"]
        [DValue.objv testEnv.objectClassId ⟨4, 187, 0⟩]).1.varAt 1000 0 =
       some ⟨"v", dvalCastString testEnv (DValue.strv "Foo"), 1001⟩ ∧
     (((resolvePSVModel testEnv ctorProto c7Dbg 1000 ["v"]
         [DValue.objv testEnv.objectClassId ⟨4, 187, 0⟩]).1.varHandles.get
        1001)).bind (fun ps => ps.displayName) = some "[object Object]") ∧
    ((resolvePSVModel testEnv tagProto c7Dbg 1000 ["v"]
        [DValue.objv testEnv.objectClassId ⟨4, 187, 0⟩]).2 = true ∧
     (resolvePSVModel testEnv tagProto c7Dbg 1000 ["v"]
        [DValue.objv testEnv.objectClassId ⟨4, 187, 0⟩]).1.varAt 1000 0 =
       some ⟨"v", "Array", 1001⟩ ∧
     (((resolvePSVModel testEnv tagProto c7Dbg 1000 ["v"]
         [DValue.objv testEnv.objectClassId ⟨4, 187, 0⟩]).1.varHandles.get
        1001)).bind (fun ps => ps.displayName) = some "Array") ∧
    ((resolvePSVModel testEnv okProto c7Dbg 1000 ["v"] [DValue.strv "hi"]).2 = true ∧
     (resolvePSVModel testEnv okProto c7Dbg 1000 ["v"]
        [DValue.strv "hi"]).1.varAt 1000 0 = some ⟨"v", "\"" ++ "hi" ++ "\"", 0⟩ ∧
     (resolvePSVModel testEnv okProto c7Dbg 1000 ["v"] [DValue.numv 2]).2 = true ∧
     (resolvePSVModel testEnv okProto c7Dbg 1000 ["v"]
        [DValue.numv 2]).1.varAt 1000 0 = some ⟨"v", testEnv.numberToString 2, 0⟩) := by
  refine ⟨?_, ?_, ?_, ?_, ?_⟩
  · exact (c7_display_name_resolution testEnv okProto "v" 5 ⟨4, 187, 0⟩ "x" "s" 0
      ⟨true, DValue.undef⟩ ⟨true, DValue.undef⟩).1 (by decide)
  · exact (c7_display_name_resolution testEnv toStrFailProto "v" 1 ⟨4, 187, 0⟩ "x" "s" 0
      ⟨false, DValue.undef⟩ ⟨true, DValue.undef⟩).2.1 rfl rfl
  · exact (c7_display_name_resolution testEnv ctorProto "v" 1 ⟨4, 187, 0⟩ "x" "s" 0
      ⟨true, DValue.undef⟩ ⟨true, DValue.strv "Foo"⟩).2.2.1 rfl rfl rfl
  · exact (c7_display_name_resolution testEnv tagProto "v" 1 ⟨4, 187, 0⟩ "Array" "s" 0
      ⟨true, DValue.undef⟩ ⟨true, DValue.undef⟩).2.2.2.1 rfl (by decide)
  · exact (c7_display_name_resolution testEnv okProto "v" 1 ⟨4, 187, 0⟩ "x" "hi" 2
      ⟨true, DValue.undef⟩ ⟨true, DValue.undef⟩).2.2.2.2


/-! ## Soft failures in scope expansion (C8) -/

/-- C8 (amended): per-key evaluation failures while expanding a scope are
soft: unsuccessful evals are filtered out and the scope's property set is
materialized with exactly the successfully evaluated keys; a rejected eval
batch resolves with the (empty) set as-is; and the constructor-name lookup
for a stack frame never rejects — it resolves to the evaluated name on
success and to the empty string on failure or for the global object. -/
theorem c8_soft_failures (env : Env) (O : DukProto) (dbg : DbgClientState)
    (keys : List String) (scopeH : Nat) (sc : DukScope) (fr : DukStackFrame)
    (results : List DukEvalResponse)
    (hwf : DbgWF dbg)
    (hsc : dbg.scopes.get scopeH = some sc)
    (hfr : dbg.stackFrames.get sc.stackFrameHandle = some fr) :
    (exceptsToList (keys.map (fun k => O.eval k (some fr.depth))) = some results →
      1 ≤ ((keys.zip results).filter (fun p => p.2.success)).length →
      namesOf (expandScopePropertiesModel env O dbg keys scopeH).1
          (expandScopePropertiesModel env O dbg keys scopeH).2 =
        ((keys.zip results).filter (fun p => p.2.success)).map (fun p => p.1)) ∧
    (exceptsToList (keys.map (fun k => O.eval k (some fr.depth))) = none →
      namesOf (expandScopePropertiesModel env O dbg keys scopeH).1
          (expandScopePropertiesModel env O dbg keys scopeH).2 = []) ∧
    (∀ (pre : String) (d : Int),
      getObjectConstructorByNameModel env O pre d = "" ∨
      ∃ rr, O.eval ("(" ++ pre ++ ".constructor.toString().match(/\\w+/g)[1])")
          (some d) = Except.ok rr ∧ rr.success = true ∧
        getObjectConstructorByNameModel env O pre d = dvalToString env rr.result) := by
  rcases hcp : dbg.createPropSet
      { type := PropertySetType.Scope, handle := 0, scopeHandle := scopeH,
        displayName := none, heapPtr := none, vars := some [] } with ⟨h, dbgA⟩
  have hA : dbgA = (dbg.createPropSet
      { type := PropertySetType.Scope, handle := 0, scopeHandle := scopeH,
        displayName := none, heapPtr := none, vars := some [] }).2 :=
    (congrArg Prod.snd hcp).symm
  have hh : h = (dbg.createPropSet
      { type := PropertySetType.Scope, handle := 0, scopeHandle := scopeH,
        displayName := none, heapPtr := none, vars := some [] }).1 :=
    (congrArg Prod.fst hcp).symm
  set dbgB : DbgClientState :=
    { dbgA with scopes := (dbgA.scopes.update scopeH
        (fun sc0 => { sc0 with propertiesHandle := some h })) } with hB
  have hwfB : DbgWF dbgB := by
    rw [hB, hA]
    exact createPropSet_WF dbg _ hwf
  have hpsB : dbgB.varHandles.get h = some
      { type := PropertySetType.Scope, handle := h, scopeHandle := scopeH,
        displayName := none, heapPtr := none, vars := some [] } := by
    rw [hB, hA, hh]
    exact get_createPropSet_self dbg _
  have hscB : dbgB.scopes.get scopeH =
      some { sc with propertiesHandle := some h } := by
    rw [hB]
    show (dbgA.scopes.update scopeH
        (fun sc0 => { sc0 with propertiesHandle := some h })).get scopeH = _
    rw [HandleStore.get_update_self,
        show dbgA.scopes = dbg.scopes from by rw [hA]; rfl, hsc]
    rfl
  have hfrB : dbgB.stackFrames.get sc.stackFrameHandle = some fr := by
    rw [hB, hA]
    exact hfr
  have hnB : namesOf dbgB h = [] := by
    unfold namesOf varsOf
    rw [hpsB]
    rfl
  refine ⟨?_, ?_, ?_⟩
  · intro hres hlen
    unfold expandScopePropertiesModel
    simp only [hcp]
    rw [← hB]
    simp only [hscB, Option.some_bind, hfrB, hres]
    rw [if_neg (Nat.not_lt.mpr hlen)]
    rw [resolvePSV_names env O dbgB h
        (((keys.zip results).filter (fun p => p.2.success)).map (fun p => p.1))
        (((keys.zip results).filter (fun p => p.2.success)).map (fun p => p.2.result))
        { type := PropertySetType.Scope, handle := h, scopeHandle := scopeH,
          displayName := none, heapPtr := none, vars := some [] }
        { sc with propertiesHandle := some h } fr hwfB hpsB hscB hfrB]
    rw [hnB, List.zip_map']
    simp [List.map_map]
  · intro hres0
    unfold expandScopePropertiesModel
    simp only [hcp]
    rw [← hB]
    simp only [hscB, Option.some_bind, hfrB, hres0]
    exact hnB
  · intro pre d
    unfold getObjectConstructorByNameModel
    rcases hg : isGlobalObjectByNameModel O pre d with e | v
    · exact Or.inl rfl
    · dsimp only
      by_cases hv : v = some true
      · rw [if_pos hv]
        exact Or.inl rfl
      · rw [if_neg hv]
        rcases he : O.eval ("(" ++ pre ++ ".constructor.toString().match(/\\w+/g)[1])")
            (some d) with e2 | rr
        · exact Or.inl rfl
        · by_cases hr : rr.success = true
          · refine Or.inr ⟨rr, rfl, hr, ?_⟩
            dsimp only
            rw [if_pos hr]
          · exact Or.inl (by dsimp only; rw [if_neg hr])


theorem c8_soft_failures_witness :
    (namesOf (expandScopePropertiesModel testEnv okProto staleDbg ["x"] 900).1
        (expandScopePropertiesModel testEnv okProto staleDbg ["x"] 900).2 =
      ((["x"].zip [(⟨true, DValue.strv "ok"⟩ : DukEvalResponse)]).filter
        (fun p => p.2.success)).map (fun p => p.1)) ∧
    (namesOf (expandScopePropertiesModel testEnv evalFailProto staleDbg ["x"] 900).1
        (expandScopePropertiesModel testEnv evalFailProto staleDbg ["x"] 900).2 =
      []) ∧
    (getObjectConstructorByNameModel testEnv okProto "this" (-1) = "" ∨
     ∃ rr, okProto.eval ("(" ++ "this" ++ ".constructor.toString().match(/\\w+/g)[1])")
         (some (-1)) = Except.ok rr ∧ rr.success = true ∧
       getObjectConstructorByNameModel testEnv okProto "this" (-1) =
         dvalToString testEnv rr.result) := by
  have hwf : DbgWF staleDbg := by
    show ∀ e ∈ staleDbg.varHandles.entries, e.1 < staleDbg.varHandles.nextHandle
    decide
  exact ⟨(c8_soft_failures testEnv okProto staleDbg ["x"] 900 testScope testFrame
      [⟨true, DValue.strv "ok"⟩] hwf rfl rfl).1 rfl (by decide),
    (c8_soft_failures testEnv evalFailProto staleDbg ["x"] 900 testScope testFrame
      [] hwf rfl rfl).2.1 rfl,
    (c8_soft_failures testEnv okProto staleDbg ["x"] 900 testScope testFrame
      [⟨true, DValue.strv "ok"⟩] hwf rfl rfl).2.2 "this" (-1)⟩

end DukDbg